import Mathlib

/-!
Verification of the query-translation and optimistic-write engine of the
Oracle storage adapter (`src/Oracle/OracleCollection.js`).

The JSON-like document values the adapter manipulates are shallowly embedded
as `JValue`; JavaScript objects become ordered association lists (JS preserves
string-key insertion order), and the relevant functions of
`OracleCollection.js` are transcribed as pure Lean functions.  JavaScript
executions that throw (property access on `undefined`, `Object.keys(null)`,
`.length` of `null`, NaN-producing arithmetic) are modelled by `Option` with
`none` for the throwing/NaN paths.
-/

namespace OracleAdapter

/-- A JSON-like JavaScript value: the document contents, filters and update
expressions handled by `OracleCollection.js`. Numbers are modelled as
integers (all values exercised by the adapter's update/filter algebra here
are integral). -/
inductive JValue where
  | null
  | bool (b : Bool)
  | num (n : Int)
  | str (s : String)
  | arr (elems : List JValue)
  | obj (fields : List (String × JValue))
deriving Repr

mutual

/-- Structural (deep) equality of JSON values. -/
def jvBeq : JValue → JValue → Bool
  | .null, .null => true
  | .bool a, .bool b => a == b
  | .num a, .num b => a == b
  | .str a, .str b => a == b
  | .arr a, .arr b => jvBeqList a b
  | .obj a, .obj b => jvBeqFields a b
  | _, _ => false

/-- Deep equality on element lists. -/
def jvBeqList : List JValue → List JValue → Bool
  | [], [] => true
  | x :: xs, y :: ys => jvBeq x y && jvBeqList xs ys
  | _, _ => false

/-- Deep equality on field lists (key order significant, as in the adapter's
object model). -/
def jvBeqFields : List (String × JValue) → List (String × JValue) → Bool
  | [], [] => true
  | (k, v) :: xs, (k', v') :: ys => k == k' && jvBeq v v' && jvBeqFields xs ys
  | _, _ => false

end

mutual

theorem jvBeq_refl : ∀ v, jvBeq v v = true
  | .null => rfl
  | .bool b => by simp [jvBeq]
  | .num n => by simp [jvBeq]
  | .str s => by simp [jvBeq]
  | .arr es => by simpa [jvBeq] using jvBeqList_refl es
  | .obj fs => by simpa [jvBeq] using jvBeqFields_refl fs

theorem jvBeqList_refl : ∀ es, jvBeqList es es = true
  | [] => rfl
  | x :: xs => by simp [jvBeqList, jvBeq_refl x, jvBeqList_refl xs]

theorem jvBeqFields_refl : ∀ fs, jvBeqFields fs fs = true
  | [] => rfl
  | (k, v) :: xs => by simp [jvBeqFields, jvBeq_refl v, jvBeqFields_refl xs]

end

mutual

theorem jvBeq_eq : ∀ a b, jvBeq a b = true → a = b
  | .null, .null, _ => rfl
  | .bool a, .bool b, h => by simpa [jvBeq] using h
  | .num a, .num b, h => by simpa [jvBeq] using h
  | .str a, .str b, h => by simpa [jvBeq] using h
  | .arr a, .arr b, h => by
      have := jvBeqList_eq a b (by simpa [jvBeq] using h)
      simp [this]
  | .obj a, .obj b, h => by
      have := jvBeqFields_eq a b (by simpa [jvBeq] using h)
      simp [this]
  | .null, .bool _, h | .null, .num _, h | .null, .str _, h
  | .null, .arr _, h | .null, .obj _, h
  | .bool _, .null, h | .bool _, .num _, h | .bool _, .str _, h
  | .bool _, .arr _, h | .bool _, .obj _, h
  | .num _, .null, h | .num _, .bool _, h | .num _, .str _, h
  | .num _, .arr _, h | .num _, .obj _, h
  | .str _, .null, h | .str _, .bool _, h | .str _, .num _, h
  | .str _, .arr _, h | .str _, .obj _, h
  | .arr _, .null, h | .arr _, .bool _, h | .arr _, .num _, h
  | .arr _, .str _, h | .arr _, .obj _, h
  | .obj _, .null, h | .obj _, .bool _, h | .obj _, .num _, h
  | .obj _, .str _, h | .obj _, .arr _, h => by simp [jvBeq] at h

theorem jvBeqList_eq : ∀ a b, jvBeqList a b = true → a = b
  | [], [], _ => rfl
  | x :: xs, y :: ys, h => by
      have h1 : jvBeq x y = true := by
        have := h; simp [jvBeqList, Bool.and_eq_true] at this; exact this.1
      have h2 : jvBeqList xs ys = true := by
        have := h; simp [jvBeqList, Bool.and_eq_true] at this; exact this.2
      simp [jvBeq_eq x y h1, jvBeqList_eq xs ys h2]
  | [], _ :: _, h => by simp [jvBeqList] at h
  | _ :: _, [], h => by simp [jvBeqList] at h

theorem jvBeqFields_eq : ∀ a b, jvBeqFields a b = true → a = b
  | [], [], _ => rfl
  | (k, v) :: xs, (k', v') :: ys, h => by
      have h0 : k = k' ∧ jvBeq v v' = true ∧ jvBeqFields xs ys = true := by
        have := h; simpa [jvBeqFields, Bool.and_eq_true, and_assoc] using this
      obtain ⟨hk, hv, ht⟩ := h0
      simp [hk, jvBeq_eq v v' hv, jvBeqFields_eq xs ys ht]
  | [], _ :: _, h => by simp [jvBeqFields] at h
  | _ :: _, [], h => by simp [jvBeqFields] at h

end

instance : DecidableEq JValue := fun a b =>
  decidable_of_iff (jvBeq a b = true)
    ⟨jvBeq_eq a b, fun h => h ▸ jvBeq_refl a⟩

instance : BEq JValue := ⟨jvBeq⟩

instance : LawfulBEq JValue where
  eq_of_beq := fun h => jvBeq_eq _ _ h
  rfl := jvBeq_refl _

/-! ## JavaScript object-model helpers -/

/-- Own-property lookup on a field list (first matching key). -/
def jsLookup : List (String × JValue) → String → Option JValue
  | [], _ => none
  | (k, v) :: rest, key => if k = key then some v else jsLookup rest key

/-- JavaScript property assignment `o[k] = v`: an existing key keeps its
position, a new key is appended (JS string-key insertion order). -/
def jsAssignEntry : List (String × JValue) → String → JValue → List (String × JValue)
  | [], key, v => [(key, v)]
  | (k, w) :: rest, key, v =>
      if k = key then (k, v) :: rest else (k, w) :: jsAssignEntry rest key v

/-- JavaScript `delete o[k]`. -/
def jsDeleteKey (fs : List (String × JValue)) (key : String) : List (String × JValue) :=
  fs.filter (fun kv => kv.1 ≠ key)

/-- Digit-list parser for numeric-string property keys (kernel-reducible
replacement for `String.toNat?`). -/
def digitsToNat : List Char → Nat → Option Nat
  | [], acc => some acc
  | c :: rest, acc =>
      if '0' ≤ c ∧ c ≤ '9' then digitsToNat rest (acc * 10 + (c.toNat - '0'.toNat))
      else none

/-- Numeric-string keys (array index access in JS). -/
def strToNatQ (s : String) : Option Nat :=
  match s.toList with
  | [] => none
  | cs => digitsToNat cs 0

/-- JavaScript property access `v[k]` (`undefined` is `none`); on arrays and
strings numeric-string keys address elements, as in JS. -/
def jsProp (v : JValue) (key : String) : Option JValue :=
  match v with
  | .obj fs => jsLookup fs key
  | .arr es =>
      match strToNatQ key with
      | some i => es[i]?
      | none => none
  | .str s =>
      match strToNatQ key with
      | some i => (s.toList[i]?).map (fun c => .str (String.mk [c]))
      | none => none
  | _ => none

/-- JavaScript index access `v[i]`. -/
def jsIndex (v : JValue) (i : Nat) : Option JValue :=
  match v with
  | .arr es => es[i]?
  | .str s => (s.toList[i]?).map (fun c => .str (String.mk [c]))
  | _ => none

/-- JavaScript `typeof v === 'object'` (true for objects, arrays and `null`). -/
def jsTypeofObject : JValue → Bool
  | .null | .arr _ | .obj _ => true
  | _ => false

/-- Whether the value is an array (`Array.isArray`). -/
def isArrJ : JValue → Bool
  | .arr _ => true
  | _ => false

/-- Whether the value is an object literal. -/
def isObjJ : JValue → Bool
  | .obj _ => true
  | _ => false

/-- The own enumerable entries `Object.keys`/`for..in` iterates (objects:
fields in insertion order; arrays and strings: indices). `Object.keys(null)`
throws and is handled at each call site. -/
def jsOwnEntries : JValue → List (String × JValue)
  | .obj fs => fs
  | .arr es => es.enum.map (fun p => (toString p.1, p.2))
  | .str s => (s.toList).enum.map (fun p => (toString p.1, .str (String.mk [p.2])))
  | _ => []

/-- `Object.keys(v).length` for non-`null` `v`. -/
def jsKeysLength (v : JValue) : Nat := (jsOwnEntries v).length

/-- JavaScript `.length` where defined: arrays and strings; `undefined`
(`none`) otherwise.  (`null.length` throws; handled at call sites.) -/
def jsLengthProp : JValue → Option Nat
  | .arr es => some es.length
  | .str s => some s.length
  | _ => none

/-- JavaScript truthiness of a possibly-`undefined` value. -/
def jsTruthy : Option JValue → Bool
  | none => false
  | some .null => false
  | some (.bool b) => b
  | some (.num n) => n ≠ 0
  | some (.str s) => s ≠ ""
  | some (.arr _) => true
  | some (.obj _) => true

/-- `Object.keys(v)[0]`: `none` when `v` is `null` (the call throws);
otherwise `some` of the first key (`none` inside for `undefined`). -/
def jsFirstKeyE : JValue → Option (Option String)
  | .null => none
  | .obj [] => some none
  | .obj ((k, _) :: _) => some (some k)
  | .arr [] => some none
  | .arr (_ :: _) => some (some "0")
  | .str "" => some none
  | .str _ => some (some "0")
  | _ => some none

/-- Helper for splitting on `'.'` (kernel-reducible replacement for
`String.splitOn`). -/
def splitDotAux : List Char → List Char → List String
  | [], acc => [String.mk acc.reverse]
  | c :: rest, acc =>
      if c = '.' then String.mk acc.reverse :: splitDotAux rest []
      else splitDotAux rest (c :: acc)

/-- Splits a lodash-style dotted path (`"a.b".split('.')`). -/
def jsSplitPath (s : String) : List String := splitDotAux s.toList []

/-- lodash `_.get`/`_.result` along a path of keys (`undefined` is `none`). -/
def jsGetPath : JValue → List String → Option JValue
  | v, [] => some v
  | v, seg :: rest =>
      match jsProp v seg with
      | some w => jsGetPath w rest
      | none => none

/-- lodash `_.set` along a path: updates in place, creating empty objects for
missing intermediate keys; a non-object target is returned unchanged (lodash
cannot attach properties to primitives). -/
def jsSetPath : JValue → List String → JValue → JValue
  | v, [], _ => v
  | .obj fs, [seg], x => .obj (jsAssignEntry fs seg x)
  | .obj fs, seg :: rest, x =>
      let child := match jsLookup fs seg with
        | some w => w
        | none => .obj []
      .obj (jsAssignEntry fs seg (jsSetPath child rest x))
  | v, _, _ => v

/-- lodash `_.unset` along a path (only the shapes the adapter uses: delete
the terminal key of an object reached through object steps). -/
def jsUnsetPath : JValue → List String → JValue
  | v, [] => v
  | .obj fs, [seg] => .obj (jsDeleteKey fs seg)
  | .obj fs, seg :: rest =>
      match jsLookup fs seg with
      | some w => .obj (jsAssignEntry fs seg (jsUnsetPath w rest))
      | none => .obj fs
  | v, _ => v

/-! ## lodash `_.merge` on JSON values

`_.merge(dst, src)` walks `src`'s own enumerable keys; a source value that is
an object/array is merged recursively into the existing value (coerced to an
empty object/array when the existing value has a different shape), any other
source value overwrites.  Arrays merge index-wise.  The merged-into object is
returned (the mutation of `dst` in place is captured by the caller using the
returned value for both). -/

mutual

/-- Node count of a JSON value, used as recursion fuel for `_.merge`. -/
def jvSizeN : JValue → Nat
  | .arr es => jvSizeL es + 1
  | .obj fs => jvSizeF fs + 1
  | _ => 1

/-- Node count of an element list (at least 1). -/
def jvSizeL : List JValue → Nat
  | [] => 1
  | e :: rest => jvSizeN e + jvSizeL rest

/-- Node count of a field list (at least 1). -/
def jvSizeF : List (String × JValue) → Nat
  | [] => 1
  | (_, v) :: rest => jvSizeN v + jvSizeF rest

end

mutual

/-- Field-wise `_.merge` with explicit recursion fuel.  The fuel decreases
once per source key and once per nesting level; since the source's node
count strictly exceeds both the number of its keys and the size of every
nested operand, fuel `jvSizeF src` never runs out (the `0` case below is
unreachable from `lodashMerge`).  A source value recursively merges into an
existing value of the same shape; otherwise it overwrites (merging into a
freshly created empty object/array is value-wise the source itself). -/
def lodashMergeFieldsF : Nat → List (String × JValue) → List (String × JValue) → List (String × JValue)
  | _, dfs, [] => dfs
  | 0, dfs, _ :: _ => dfs
  | fuel + 1, dfs, (k, v) :: rest =>
      let newv : JValue :=
        match jsLookup dfs k, v with
        | some (.obj old), .obj s => .obj (lodashMergeFieldsF fuel old s)
        | some (.arr old), .arr s => .arr (lodashMergeArrF fuel old s)
        | _, _ => v
      lodashMergeFieldsF fuel (jsAssignEntry dfs k newv) rest

/-- Index-wise `_.merge` of arrays with explicit recursion fuel; elements
past the source's length are kept. -/
def lodashMergeArrF : Nat → List JValue → List JValue → List JValue
  | _, ds, [] => ds
  | 0, ds, _ :: _ => ds
  | fuel + 1, ds, s :: ss =>
      let newv : JValue :=
        match ds.head?, s with
        | some (.obj old), .obj sf => JValue.obj (lodashMergeFieldsF fuel old sf)
        | some (.arr old), .arr se => JValue.arr (lodashMergeArrF fuel old se)
        | _, _ => s
      newv :: lodashMergeArrF fuel ds.tail ss

end

/-- lodash `_.merge(dst, src)` at the top level: iterating a primitive
source's (absent) keys is a no-op, and merging into a primitive destination
cannot attach properties. -/
def lodashMerge (dst src : JValue) : JValue :=
  match src, dst with
  | .obj sfs, .obj dfs => .obj (lodashMergeFieldsF (jvSizeF sfs) dfs sfs)
  | .arr ses, .arr des => .arr (lodashMergeArrF (jvSizeL ses) des ses)
  | _, d => d

/-! ## The update transformation of `findOneAndUpdate`
(`src/Oracle/OracleCollection.js` lines 156-367)

`findOneAndUpdate` rewrites the Mongo-style update expression in passes
(`$unset` collection, `$inc`, `$addToSet`, `$pullAll`) while mutating the
document content fetched by the read step, then builds the replacement
object.  The passes are transcribed below with the mutated content threaded
explicitly; `none` marks inputs on which the JavaScript throws (or produces
NaN, which has no JSON representation). -/

/-- `Object.keys(v)` entries, or `none` when the call throws (`v` null). -/
def objKeysE : JValue → Option (List (String × JValue))
  | .null => none
  | v => some (jsOwnEntries v)

/-- The `$unset` collection pass (lines 176-190): field names listed under
every `$unset` key of the update. -/
def unsetFieldNames (update : JValue) : Option (List String) :=
  match objKeysE update with
  | none => none
  | some entries =>
      entries.foldl
        (fun acc kv =>
          match acc with
          | none => none
          | some names =>
              if kv.1 = "$unset" then
                match objKeysE kv.2 with
                | none => none
                | some inner => some (names ++ inner.map Prod.fst)
              else some names)
        (some [])

/-- One `$inc` entry (line 213): `_.set(content, k2, _.result(content, k2) + d)`.
A non-numeric current value or delta yields NaN, which has no JSON
representation: `none`. -/
def incApplyOne (c : JValue) (k2 : String) (d : JValue) : Option JValue :=
  match jsGetPath c (jsSplitPath k2), d with
  | some (.num a), .num b => some (jsSetPath c (jsSplitPath k2) (.num (a + b)))
  | _, _ => none

/-- All entries of a `$inc` operand applied in order. -/
def incApplyAll : JValue → List (String × JValue) → Option JValue
  | c, [] => some c
  | c, (k2, d) :: rest =>
      match incApplyOne c k2 d with
      | none => none
      | some c' => incApplyAll c' rest

/-- The `$inc` pass loop over the update's keys (lines 206-222): `$inc`
entries mutate the content, the remaining keys are collected into the
rewritten update (`_updated_at` renamed to `updatedAt`). -/
def incLoop : JValue → List (String × JValue) → List (String × JValue) → Bool →
    Option (JValue × List (String × JValue) × Bool)
  | c, [], acc, flag => some (c, acc, flag)
  | c, (k, v) :: rest, acc, flag =>
      if k = "$inc" then
        match objKeysE v with
        | none => none
        | some incs =>
            match incApplyAll c incs with
            | none => none
            | some c' => incLoop c' rest acc (flag || !incs.isEmpty)
      else if k = "_updated_at" then incLoop c rest (jsAssignEntry acc "updatedAt" v) flag
      else incLoop c rest (jsAssignEntry acc k v) flag

/-- The `$inc` pass (lines 206-226): returns the mutated content and the
update to use next (`newIncUpdate` only when an increment was applied). -/
def incPass (content update : JValue) : Option (JValue × JValue) :=
  match objKeysE update with
  | none => none
  | some entries =>
      (incLoop content entries [] false).map
        (fun r => (r.1, if r.2.2 then .obj r.2.1 else update))

/-- The membership callback of `$addToSet` on object candidates (line 247):
`newArray.some(entry => Object.keys(entry)[0] === Object.keys(updt)[0])`,
with `none` when `Object.keys` throws inside the callback. -/
def someEntryFirstKeyEq : List JValue → JValue → Option Bool
  | [], _ => some false
  | e :: rest, c =>
      match jsFirstKeyE e with
      | none => none
      | some k =>
          match jsFirstKeyE c with
          | none => none
          | some ck => if k = ck then some true else someEntryFirstKeyEq rest c

/-- One `$each` candidate (lines 245-257): append unless already present;
object presence is first-key equality, scalar presence is `includes`. The
returned flag records whether a push happened (`addToSetUpdt`). -/
def addToSetInsertOne (a : List JValue) (flag : Bool) (c : JValue) :
    Option (List JValue × Bool) :=
  if jsTypeofObject c then
    match someEntryFirstKeyEq a c with
    | none => none
    | some true => some (a, flag)
    | some false => some (a ++ [c], true)
  else
    if a.contains c then some (a, flag) else some (a ++ [c], true)

/-- All `$each` candidates in order. -/
def addToSetInsertAll : List JValue → Bool → List JValue → Option (List JValue × Bool)
  | a, flag, [] => some (a, flag)
  | a, flag, c :: cs =>
      match addToSetInsertOne a flag c with
      | none => none
      | some (a', flag') => addToSetInsertAll a' flag' cs

/-- Resolution of the `$addToSet` target array (lines 237-244): dotted paths
use exactly the first two segments (`content[temp[0]][temp[1]]`); `none`
when the first step is `undefined` and the second access throws.  The inner
`Option` is the possibly-`undefined` target value. -/
def resolveTargetArray (content : JValue) (temp : List String) : Option (Option JValue) :=
  match temp with
  | t0 :: t1 :: _ =>
      match jsProp content t0 with
      | none => none
      | some w => some (jsProp w t1)
  | [t0] => some (jsProp content t0)
  | [] => some none

/-- One `$each` list applied to its target field: the pushes mutate the
array inside the content, written back along the (truncated) path. -/
def addToSetApplyEach (content : JValue) (it2 : String) (cands : List JValue) :
    Option (JValue × Bool) :=
  let temp := jsSplitPath it2
  match resolveTargetArray content temp with
  | none => none
  | some targetOpt =>
      match cands with
      | [] => some (content, false)
      | _ =>
          match targetOpt with
          | some (.arr a) =>
              match addToSetInsertAll a false cands with
              | none => none
              | some (a', flag) =>
                  some (jsSetPath content (temp.take 2) (.arr a'), flag)
          | _ => none

/-- Loop over the keys of one `$addToSet` field operand (lines 234-258):
only the `$each` key acts. -/
def addToSetEachLoop : JValue → String → List (String × JValue) → Bool →
    Option (JValue × Bool)
  | content, _, [], flag => some (content, flag)
  | content, it2, (it3, v3) :: rest, flag =>
      if it3 = "$each" then
        match v3 with
        | .arr cands =>
            match addToSetApplyEach content it2 cands with
            | none => none
            | some (c', fl) => addToSetEachLoop c' it2 rest (flag || fl)
        | _ => none
      else addToSetEachLoop content it2 rest flag

/-- Loop over the fields of the `$addToSet` operand (line 233). -/
def addToSetFieldsLoop : JValue → List (String × JValue) → Bool →
    Option (JValue × Bool)
  | content, [], flag => some (content, flag)
  | content, (it2, v2) :: rest, flag =>
      match objKeysE v2 with
      | none => none
      | some inner =>
          match addToSetEachLoop content it2 inner flag with
          | none => none
          | some (c', fl) => addToSetFieldsLoop c' rest fl

/-- The `$addToSet` pass loop over the update's keys (lines 231-268). -/
def addToSetLoop : JValue → List (String × JValue) → List (String × JValue) → Bool →
    Option (JValue × List (String × JValue) × Bool)
  | content, [], acc, flag => some (content, acc, flag)
  | content, (k, v) :: rest, acc, flag =>
      if k = "$addToSet" then
        match objKeysE v with
        | none => none
        | some fields =>
            match addToSetFieldsLoop content fields flag with
            | none => none
            | some (c', fl) => addToSetLoop c' rest acc fl
      else if k = "_updated_at" then addToSetLoop content rest (jsAssignEntry acc "updatedAt" v) flag
      else addToSetLoop content rest (jsAssignEntry acc k v) flag

/-- The `$addToSet` pass (lines 228-272): mutated content, and the rewritten
update only when some push happened. -/
def addToSetPass (content update : JValue) : Option (JValue × JValue) :=
  match objKeysE update with
  | none => none
  | some entries =>
      (addToSetLoop content entries [] false).map
        (fun r => (r.1, if r.2.2 then .obj r.2.1 else update))

/-- The `$pullAll` rebuild for one object candidate (lines 285-290): every
stored entry whose first key differs from the candidate's first key is
appended to the (shared, never reset) `newArray`; the flag (`pullAllUpdt`)
is set on each append. -/
def pullAllScanEntries : List JValue → JValue → List JValue → Bool →
    Option (List JValue × Bool)
  | [], _, acc, flag => some (acc, flag)
  | e :: rest, c, acc, flag =>
      match jsFirstKeyE e with
      | none => none
      | some k =>
          match jsFirstKeyE c with
          | none => none
          | some ck =>
              if k ≠ ck then pullAllScanEntries rest c (acc ++ [e]) true
              else pullAllScanEntries rest c acc flag

/-- All candidates of one `$pullAll` field (lines 283-293): object
candidates scan the stored array (which must exist and be an array, or the
`forEach` throws), scalar candidates do nothing; the shared `newArray`
accumulates across candidates. -/
def pullAllCandLoop : Option JValue → List JValue → List JValue → Bool →
    Option (List JValue × Bool)
  | _, [], acc, flag => some (acc, flag)
  | rslt, c :: cs, acc, flag =>
      if jsTypeofObject c then
        match rslt with
        | some (.arr entries) =>
            match pullAllScanEntries entries c acc flag with
            | none => none
            | some (acc', flag') => pullAllCandLoop rslt cs acc' flag'
        | _ => none
      else pullAllCandLoop rslt cs acc flag

/-- Loop over the fields of the `$pullAll` operand (lines 279-294):
`newPullAllUpdate[it2] = newArray` is assigned once per candidate, hence
only when the candidate list is non-empty. -/
def pullAllFieldLoop : JValue → List (String × JValue) → List (String × JValue) → Bool →
    Option (List (String × JValue) × Bool)
  | _, [], acc, flag => some (acc, flag)
  | content, (it2, v) :: rest, acc, flag =>
      match v with
      | .arr cands =>
          match pullAllCandLoop (jsProp content it2) cands [] false with
          | none => none
          | some (res, flag') =>
              pullAllFieldLoop content rest
                (if cands.isEmpty then acc else jsAssignEntry acc it2 (.arr res))
                (flag || flag')
      | _ => none

/-- The `$pullAll` pass loop over the update's keys (lines 277-302). -/
def pullAllLoop : JValue → List (String × JValue) → List (String × JValue) → Bool →
    Option (List (String × JValue) × Bool)
  | _, [], acc, flag => some (acc, flag)
  | content, (k, v) :: rest, acc, flag =>
      if k = "$pullAll" then
        match objKeysE v with
        | none => none
        | some fields =>
            match pullAllFieldLoop content fields acc flag with
            | none => none
            | some (acc', flag') => pullAllLoop content rest acc' flag'
      else if k = "_updated_at" then pullAllLoop content rest (jsAssignEntry acc "updatedAt" v) flag
      else pullAllLoop content rest (jsAssignEntry acc k v) flag

/-- The `$pullAll` pass (lines 274-306): the rewritten update (only when the
flag was set) and the `pullAllUpdt` flag, which also selects the final
merge branch.  The content is not modified by this pass. -/
def pullAllPass (content update : JValue) : Option (JValue × Bool) :=
  match objKeysE update with
  | none => none
  | some entries =>
      (pullAllLoop content entries [] false).map
        (fun r => (if r.2 then .obj r.1 else update, r.2))

/-- `Object.prototype.hasOwnProperty.call(v, key)`; the call throws on
`null`. -/
def hasOwnE (v : JValue) (key : String) : Option Bool :=
  match v with
  | .null => none
  | .obj fs => some (jsLookup fs key).isSome
  | .arr es => some (match strToNatQ key with
      | some i => decide (i < es.length)
      | none => false)
  | _ => some false

/-- The `_metadata`-aware assignment loop of the final stage (lines
339-362): `_metadata` is merged key-by-key into the existing metadata
sub-object, except `class_permissions` which is wholesale-replaced when both
sides define it; every other key is `_.set` wholesale. -/
def metaLoop : JValue → List (String × JValue) → Option JValue
  | content, [] => some content
  | content, (k, v) :: rest =>
      if k = "_metadata" then
        let found := (jsOwnEntries content).any (fun kv => kv.1 = "_metadata")
        if found then
          match jsProp content "_metadata" with
          | some mv =>
              match hasOwnE mv "class_permissions" with
              | none => none
              | some true =>
                  match hasOwnE v "class_permissions" with
                  | none => none
                  | some true =>
                      match jsProp v "class_permissions" with
                      | some cp =>
                          metaLoop
                            (jsSetPath content ["_metadata"]
                              (jsSetPath mv ["class_permissions"] cp)) rest
                      | none => none
                  | some false =>
                      metaLoop (jsSetPath content ["_metadata"] (lodashMerge mv v)) rest
              | some false =>
                  metaLoop (jsSetPath content ["_metadata"] (lodashMerge mv v)) rest
          | none => none
        else metaLoop (jsSetPath content (jsSplitPath k) v) rest
      else metaLoop (jsSetPath content (jsSplitPath k) v) rest

/-- The final stage of `findOneAndUpdate` (lines 322-367): empty-object
removal, then one of the three builders of the replacement object.  Returns
`(updateObj, final value of the oldContent object)` — the second component
records the in-place mutations the JavaScript applied to the content
fetched by the read step. -/
def finalStage (content update : JValue) (pullFl : Bool) : Option (JValue × JValue) :=
  match objKeysE update with
  | none => none
  | some entries =>
      let content2 := entries.foldl
        (fun c kv =>
          if jsTypeofObject kv.2 ∧ kv.2 ≠ JValue.null ∧ kv.1 ≠ "updatedAt" ∧
              jsKeysLength kv.2 = 0
          then jsUnsetPath c (jsSplitPath kv.1) else c) content
      if jsTruthy (jsProp update "fieldName") then
        match jsProp update "fieldName", jsProp update "theFieldType" with
        | some (.str fn), some t =>
            some (.obj (jsAssignEntry (jsOwnEntries content2) fn t), content2)
        | _, _ => none
      else if pullFl ∨ jsTruthy (jsProp update "_metadata") then
        (metaLoop content2 entries).map (fun c => (c, c))
      else
        let m := lodashMerge content2 update
        some (m, m)

/-- The three update-rewriting passes in sequence, producing the mutated
content, the rewritten update, and the `pullAllUpdt` flag consumed by the
final stage.  A non-empty `$unset` list dispatches a collection-wide field
deletion and a re-read (lines 195-204), outside this single-document
model. -/
def transformPasses (content update : JValue) : Option (JValue × JValue × Bool) :=
  match unsetFieldNames update with
  | none => none
  | some (_ :: _) => none
  | some [] =>
      match incPass content update with
      | none => none
      | some (c1, u1) =>
          match addToSetPass c1 u1 with
          | none => none
          | some (c2, u2) =>
              match pullAllPass c2 u2 with
              | none => none
              | some (u3, pullFl) => some (c2, u3, pullFl)

/-- The whole update transformation of `findOneAndUpdate`, with the final
value of the mutated content as second component. -/
def applyUpdateT (content update : JValue) : Option (JValue × JValue) :=
  match transformPasses content update with
  | none => none
  | some (c2, u3, pullFl) => finalStage c2 u3 pullFl

/-- The replacement object `findOneAndUpdate` submits to the conditional
replace. -/
def applyUpdate (content update : JValue) : Option JValue :=
  (applyUpdateT content update).map Prod.fst

/-! ## The filter translation of `_rawFind`
(`src/Oracle/OracleCollection.js` lines 860-1046)

`_rawFind` rewrites the Mongo-style filter in a `for..in` loop over the keys
of a deep copy `myObj` of the query, mutating a `query` variable that is
finally handed to the store (`findOperation.filter(query)`); some branches
return `[]` directly, short-circuiting without contacting the store.  The
sort/skip/limit/hint options are not involved in the rewriting and the loop
is modelled as invoked without them. -/

/-- Loose equality with `null` (`x == null`): true for `null` and
`undefined`. -/
def looseNullO : Option JValue → Bool
  | none => true
  | some .null => true
  | _ => false

/-- Property assignment `q[k] = v` on the evolving query value. -/
def jsAssignKey (v : JValue) (k : String) (w : JValue) : JValue :=
  match v with
  | .obj fs => .obj (jsAssignEntry fs k w)
  | other => other

/-- The state of the rewriting loop: the (mutable) deep copy `myObj` and the
evolving `query`. -/
structure TrState where
  myObj : List (String × JValue)
  query : JValue
deriving DecidableEq, Repr

/-- Outcome of one step of the rewriting loop. -/
inductive StepRes where
  | cont (st : TrState)
  | empty
  | err
deriving DecidableEq, Repr

/-- Result of the whole translation. -/
inductive TranslateResult where
  | emptyResult
  | query (q : JValue)
  | err
deriving DecidableEq, Repr

/-- The `newCondList` accumulator of the `$all`-on-objects rewrite (lines
941-956): for every object-typed element of the operand, one conjunct per
key of the FIRST element `e0` is pushed. -/
def allObjectsCondList (x : String) (e0 : JValue) (elems : List JValue) : List JValue :=
  let conj := (jsOwnEntries e0).map
    (fun kv => JValue.obj [(x ++ "[*]." ++ kv.1, kv.2)])
  elems.foldl (fun acc el => if jsTypeofObject el then acc ++ conj else acc) []

/-- Inner-loop stage 1 (lines 926-964): `$all` whose first operand element
is loosely `null` short-circuits to `[]`; otherwise an `$all` whose first
element lacks `__FIELD__!!__` is rewritten — for every object-typed element
of the operand, one conjunct per key of the FIRST element is pushed, of the
form `{x[*].key: value}` with key and value from the first element. -/
def innerStage1 (x : String) (st : TrState) (y : String) (yv : JValue) : StepRes :=
  let firstElemFieldUndef : Bool :=
    match jsIndex yv 0 with
    | some e0 => (jsProp e0 "__FIELD__!!__").isNone
    | none => false
  if y = "$all" ∧ isArrJ yv ∧ looseNullO (jsIndex yv 0) then .empty
  else
    if y = "$all" ∧ isArrJ yv ∧ firstElemFieldUndef then
      match yv, jsIndex yv 0 with
      | .arr elems, some e0 =>
          let newCondList := allObjectsCondList x e0 elems
          if newCondList.isEmpty then .cont st
          else .cont { st with query := .obj [("$and", .arr newCondList)] }
      | _, _ => .cont st
    else .cont st

/-- Inner-loop stage 2 (lines 968-994): `$in`/`$nin`/`$all` length checks —
a non-empty `$all` whose first element is an empty object short-circuits to
`[]`; an empty `$in`/`$all` short-circuits to `[]`; an empty `$nin`
replaces the whole query with `{}`.  `null.length` throws. -/
def innerStage2 (st : TrState) (y : String) (yv : JValue) : StepRes :=
  if y = "$in" ∨ y = "$nin" ∨ y = "$all" then
    match yv with
    | .null => .err
    | _ =>
        let lenO := jsLengthProp yv
        let r1 : StepRes :=
          match lenO with
          | some (_ + 1) =>
              match jsIndex yv 0 with
              | some e0 =>
                  if e0 ≠ JValue.null ∧ jsKeysLength e0 = 0 ∧ y = "$all" ∧
                      jsTypeofObject e0
                  then .empty else .cont st
              | none => .cont st
          | _ => .cont st
        match r1 with
        | .cont st1 =>
            if lenO = some 0 then
              if y = "$in" ∨ y = "$all" then .empty
              else .cont { st1 with query := .obj [] }
            else .cont st1
        | r => r
  else .cont st

/-- The per-condition conjuncts of the `__FIELD__!!__` rebuild (lines
1029-1033): `query[x][y][condition]['__FIELD__!!__']` throws a TypeError on
a `null` condition value; on a condition value without the property the
pushed `{x: undefined}` serializes to `{}` on the way to the store. -/
def condListFields (x : String) : List (String × JValue) → Option (List JValue)
  | [] => some []
  | (_, v) :: rest =>
      match v with
      | .null => none
      | _ =>
          (condListFields x rest).map (fun tail =>
            (match jsProp v "__FIELD__!!__" with
             | some w => JValue.obj [(x, w)]
             | none => JValue.obj []) :: tail)

/-- Inner-loop stage 3 (lines 1026-1038): `$all` whose first operand element
HAS a `__FIELD__!!__` property rebuilds the query from `query[x][y]`; the
property access on an `undefined` first element throws, as does a `null`
condition value inside the rebuild loop. -/
def innerStage3 (x : String) (st : TrState) (y : String) (yv : JValue) : StepRes :=
  if y = "$all" then
    match jsIndex yv 0 with
    | none => .err
    | some e0 =>
        if (jsProp e0 "__FIELD__!!__").isSome then
          match jsProp st.query x with
          | none => .err
          | some qx =>
              match jsProp qx y with
              | none => .cont { st with query := .obj [("$and", .arr [])] }
              | some qxy =>
                  match condListFields x (jsOwnEntries qxy) with
                  | none => .err
                  | some condList =>
                      .cont { st with query := .obj [("$and", .arr condList)] }
        else .cont st
  else .cont st

/-- One iteration of the inner `for (const y in json)` loop. -/
def innerStep (x : String) (st : TrState) (y : String) (yv : JValue) : StepRes :=
  match innerStage1 x st y yv with
  | .cont st1 =>
      match innerStage2 st1 y yv with
      | .cont st2 => innerStage3 x st2 y yv
      | r => r
  | r => r

/-- The inner `for (const y in json)` loop. -/
def innerLoop (x : String) (st : TrState) : List (String × JValue) → StepRes
  | [] => .cont st
  | (y, yv) :: rest =>
      match innerStep x st y yv with
      | .cont st' => innerLoop x st' rest
      | r => r

/-- Processing of one key `x` of `myObj` (the body of the outer `for (const
x in myObj)` loop, lines 866-1045): the null-equality rewrite (merging with
a pre-existing top-level `$or` under a `$and` and deleting the consumed
`$or` key), the `$ne`-null rewrite, the removal of empty objects from a
`$and` array, the inner operator loop, and the `$or` passthrough.  A key
deleted before being visited is skipped, as `for..in` does. -/
def processEntry (st : TrState) (x : String) : StepRes :=
  match jsLookup st.myObj x with
  | none => .cont st
  | some xv =>
      if jsTypeofObject xv then
        let st1 : TrState :=
          if xv = JValue.null then
            match jsLookup st.myObj "$or" with
            | some orv =>
                { myObj := jsDeleteKey st.myObj "$or"
                  query := .obj [("$and", .arr
                    [ .obj [("$or", .arr [.obj [(x, .obj [("$exists", .bool false)])],
                                          .obj [(x, .null)]])],
                      .obj [("$or", orv)] ])] }
            | none =>
                { st with query := .obj [("$or", .arr
                    [.obj [(x, .obj [("$exists", .bool false)])], .obj [(x, .null)]])] }
          else st
        let st2 : TrState :=
          if xv ≠ JValue.null ∧ jsFirstKeyE xv = some (some "$ne") ∧
              jsProp xv "$ne" = some .null then
            { st1 with query := .obj [("$and", .arr
                [.obj [(x, .obj [("$exists", .bool true)])],
                 .obj [(x, .obj [("$ne", .null)])]])] }
          else st1
        let r3 : StepRes :=
          if xv ≠ JValue.null ∧ x = "$and" ∧ isArrJ xv then
            match xv with
            | .arr elems =>
                if elems.any (fun el => el = JValue.null) then .err
                else
                  .cont
                    { st2 with
                      query := .obj [("$and",
                        .arr (elems.filter (fun el => jsKeysLength el ≠ 0)))] }
            | _ => .cont st2
          else .cont st2
        match r3 with
        | .cont st3 =>
            match innerLoop x st3 (jsOwnEntries xv) with
            | .cont st4 =>
                if x = "$or" then
                  match jsLookup st4.myObj "$or" with
                  | some v => .cont { st4 with query := jsAssignKey st4.query "$or" v }
                  | none => .cont st4
                else .cont st4
            | r => r
        | r => r
      else .cont st

/-- The outer loop over the keys of the copy. -/
def entryLoop : TrState → List String → TranslateResult
  | st, [] => .query st.query
  | st, x :: rest =>
      match processEntry st x with
      | .cont st' => entryLoop st' rest
      | .empty => .emptyResult
      | .err => .err

/-- The whole filter translation of `_rawFind`: either a short-circuited
empty result (the store is never contacted), the rewritten query submitted
to `findOperation.filter`, or a thrown error.  Filters are always objects
at the adapter's boundary; other values pass through untouched (`for..in`
over them rewrites nothing relevant). -/
def rawFindTranslate (query : JValue) : TranslateResult :=
  match query with
  | .obj entries => entryLoop ⟨entries, .obj entries⟩ (entries.map Prod.fst)
  | q => .query q

/-! ## The native store boundary

The underlying SODA store is an external collaborator (spec §6); its
filter-by-example evaluation is modelled from the spec for the two-level
filters the translator emits. -/

/-- Modelled from the spec: one field condition of the native store's
filter-by-example matching (the store treats `{f: null}` as "field present
with value null" — it does NOT match an absent field, which is the premise
of the translator's null rewrites; `$exists` tests presence; `$ne` matches
a present value different from the operand). -/
def leafMatch (doc : JValue) (f : String) (cond : JValue) : Bool :=
  match cond with
  | .obj [("$exists", .bool b)] => (jsProp doc f).isSome == b
  | .obj [("$ne", w)] =>
      match jsProp doc f with
      | some x => x ≠ w
      | none => false
  | w => jsProp doc f = some w

/-- Modelled from the spec: a conjunction of field conditions (one branch of
an `$or`/`$and`). -/
def clauseMatch (doc : JValue) (c : JValue) : Bool :=
  match c with
  | .obj entries => entries.all (fun kv => leafMatch doc kv.1 kv.2)
  | _ => false

/-- Modelled from the spec: the native store's filter-by-example matching
for the two-level filters produced by the translator (top-level `$or`/`$and`
of conjunctions of field conditions, or direct field conditions). -/
def qbeMatch (filter : JValue) (doc : JValue) : Bool :=
  match filter with
  | .obj entries =>
      entries.all (fun kv =>
        match kv.1, kv.2 with
        | "$or", .arr cs => cs.any (clauseMatch doc)
        | "$and", .arr cs => cs.all (clauseMatch doc)
        | f, cond => leafMatch doc f cond)
  | _ => false

/-- A document as the store returns it: key, version token, content. -/
structure SodaDoc where
  key : String
  version : String
  content : JValue
deriving DecidableEq, Repr

/-- `_rawFind`'s query phase against a store modelled as a list of
documents: a translation short-circuit returns `[]` without contacting the
store, a translation error propagates, otherwise the store filters by the
rewritten query. -/
def rawFindDocs (store : List SodaDoc) (query : JValue) : Option (List SodaDoc) :=
  match rawFindTranslate query with
  | .emptyResult => some []
  | .err => none
  | .query q => some (store.filter (fun d => qbeMatch q d.content))

/-! ## The optimistic write engine
(`_rawFind` result shaping, `findOneAndUpdate`, `deleteField`, `upsertOne`) -/

/-- The value `_rawFind` resolves to in result mode `'one'`. -/
inductive OneResult where
  | found (content : JValue) (key version : String)
  | notFoundEmpty
  | multiErr
deriving DecidableEq, Repr

/-- Result-mode `'one'` shaping (lines 1123-1139): exactly one document
yields its `(content, key, version)`; zero documents yield the empty object
`{}`; more than one throws (`docs.length == 1` is tested first, then
`docs.length == 0`, else `throw`). -/
def rawFindOneSelect (docs : List SodaDoc) : OneResult :=
  match docs with
  | [d] => .found d.content d.key d.version
  | [] => .notFoundEmpty
  | _ => .multiErr

/-- A conditional replace request:
`find().key(key).version(version).replaceOne(newContent)`. -/
structure ReplaceRequest where
  key : String
  version : String
  newContent : JValue
deriving DecidableEq, Repr

/-- The conditional replace `findOneAndUpdate` issues when the read found a
document (line 373): addressed by exactly the read document's key and
version, carrying the transformed content. -/
def foauReplaceRequest (read : OneResult) (update : JValue) : Option ReplaceRequest :=
  match read with
  | .found content k v => (applyUpdateT content update).map (fun p => ⟨k, v, p.1⟩)
  | _ => none

/-- The `$addToSet` operand fields scanned against the empty read result:
`Object.keys(null)` throws, and reaching any `$each` key throws at the
target-array read (`result.content[it2]` with `result.content` undefined,
lines 241/243). -/
def addToSetFieldsEmptyRead : List (String × JValue) → Option Unit
  | [] => some ()
  | (_, v2) :: rest =>
      match objKeysE v2 with
      | none => none
      | some inner =>
          if inner.any (fun kv => kv.1 = "$each") then none
          else addToSetFieldsEmptyRead rest

/-- The update-rewrite passes of `findOneAndUpdate` run against the EMPTY
read result `{}` — the source runs lines 206-306 before the found-check at
line 311, with `result.content` undefined.  The `$inc` pass is harmless
(`_.result` of `undefined` is `undefined` and lodash `_.set` on a
non-object is a no-op), but any `$addToSet` field operand holding an
`$each` key throws at the target-array read (lines 241/243), every key of
a `$pullAll` operand throws at `result.content[it2]` (line 281), and
`Object.keys(null)` throws.  The pass order does not matter for whether a
throw occurs, so one scan over the update's keys suffices. -/
def emptyReadLoop : List (String × JValue) → Option Unit
  | [] => some ()
  | (k, v) :: rest =>
      if k = "$inc" then
        match objKeysE v with
        | none => none
        | some _ => emptyReadLoop rest
      else if k = "$addToSet" then
        match objKeysE v with
        | none => none
        | some fields =>
            match addToSetFieldsEmptyRead fields with
            | none => none
            | some _ => emptyReadLoop rest
      else if k = "$pullAll" then
        match objKeysE v with
        | none => none
        | some [] => emptyReadLoop rest
        | some (_ :: _) => none
      else emptyReadLoop rest

/-- Whether the rewrite passes complete without throwing on a zero-match
read (`some ()`), or throw / dispatch the out-of-model collection-wide
`$unset` deletion (`none`). -/
def emptyReadPasses (update : JValue) : Option Unit :=
  match unsetFieldNames update with
  | none => none
  | some (_ :: _) => none
  | some [] =>
      match objKeysE update with
      | none => none
      | some entries => emptyReadLoop entries

/-- The post-read portion of `findOneAndUpdate` (lines 206-395), as the JS
value the returned promise resolves to.  The rewrite passes run BEFORE the
found-check (line 311): on the empty read result they throw for array
operators (`result.content` is undefined), and only an update that survives
them resolves `false`; a found document resolves the replacement object
when the store reports `replaced`, and the string `'retry'` otherwise; a
multi-document read (and any transform throw) propagates as an error
(`none`). -/
def foauAfterRead (read : OneResult) (update : JValue) (replaced : Bool) : Option JValue :=
  match read with
  | .multiErr => none
  | .notFoundEmpty =>
      match emptyReadPasses update with
      | none => none
      | some _ => some (.bool false)
  | .found content _ _ =>
      match applyUpdateT content update with
      | none => none
      | some (updateObj, _) => some (if replaced then updateObj else .str "retry")

/-- `findOneAndUpdate` (lines 156-400) against the modelled store, with the
store's `replaced` verdict for the conditional write supplied as a
parameter. -/
def findOneAndUpdateRun (store : List SodaDoc) (query update : JValue) (replaced : Bool) :
    Option JValue :=
  match rawFindDocs store query with
  | none => none
  | some docs => foauAfterRead (rawFindOneSelect docs) update replaced

/-- `deleteField` (lines 641-671): deletes the field from the fetched
content in place and issues the conditional replace addressed by the given
`(key, version)`; resolves the mutated content when the store reports
`replaced`, and the string `'retry'` otherwise. -/
def deleteFieldRun (fieldName key version : String) (oldContent : JValue) (replaced : Bool) :
    ReplaceRequest × JValue :=
  let newContent : JValue :=
    match oldContent with
    | .obj fs => .obj (jsDeleteKey fs fieldName)
    | v => v
  (⟨key, version, newContent⟩, if replaced then newContent else .str "retry")

/-- The value `upsertOne` resolves to. -/
inductive UpsertOutcome where
  | ret (v : JValue)
  | inserted (payload : JValue)
  | recheckDocs (ds : List SodaDoc)
deriving DecidableEq, Repr

/-- `upsertOne` (lines 119-154): attempt `findOneAndUpdate`; on the `false`
(not-found) result re-run the read, and if it still matches nothing, merge
the query's fields into the update payload (`_.merge(update, query)`) and
insert the merged document; any non-`false` result of the update attempt is
returned as is, with no insert. -/
def upsertOneRun (store : List SodaDoc) (query update : JValue) (replaced : Bool) :
    Option UpsertOutcome :=
  match findOneAndUpdateRun store query update replaced with
  | none => none
  | some r =>
      if r = .bool false then
        match rawFindDocs store query with
        | none => none
        | some ds =>
            if ds.length = 0 then some (.inserted (lodashMerge update query))
            else some (.recheckDocs ds)
      else some (.ret r)

/-! ## Shape-preservation lemmas

The content fetched by the read step is a JSON object; every mutation the
transform applies keeps it one, so the replacement object submitted to the
store is an object — in particular it can never collide with the string
`'retry'` or the boolean `false` used as sentinels. -/

theorem isObjJ_jsSetPath {v : JValue} (p : List String) (x : JValue)
    (h : isObjJ v = true) : isObjJ (jsSetPath v p x) = true := by
  cases v <;> simp [isObjJ] at h ⊢
  match p with
  | [] => simp [jsSetPath, isObjJ]
  | [s] => simp [jsSetPath, isObjJ]
  | s :: t :: r => simp [jsSetPath, isObjJ]

theorem isObjJ_jsUnsetPath {v : JValue} (p : List String)
    (h : isObjJ v = true) : isObjJ (jsUnsetPath v p) = true := by
  cases v <;> simp [isObjJ] at h ⊢
  match p with
  | [] => simp [jsUnsetPath, isObjJ]
  | [s] => simp [jsUnsetPath, isObjJ]
  | s :: t :: r =>
      simp only [jsUnsetPath]
      cases jsLookup _ s <;> simp [isObjJ]

theorem isObjJ_lodashMerge {dst : JValue} (src : JValue)
    (h : isObjJ dst = true) : isObjJ (lodashMerge dst src) = true := by
  cases dst <;> simp [isObjJ] at h ⊢
  cases src <;> simp [lodashMerge, isObjJ]

theorem incApplyOne_obj {c c' : JValue} {k2 : String} {d : JValue}
    (h : incApplyOne c k2 d = some c') (hc : isObjJ c = true) : isObjJ c' = true := by
  unfold incApplyOne at h
  split at h <;> simp_all
  subst h
  exact isObjJ_jsSetPath _ _ hc

theorem incApplyAll_obj : ∀ (l : List (String × JValue)) {c c' : JValue},
    incApplyAll c l = some c' → isObjJ c = true → isObjJ c' = true
  | [], c, c', h, hc => by simp [incApplyAll] at h; simpa [← h]
  | (k2, d) :: rest, c, c', h, hc => by
      simp only [incApplyAll] at h
      cases heq : incApplyOne c k2 d with
      | none => simp [heq] at h
      | some c1 =>
          rw [heq] at h
          exact incApplyAll_obj rest h (incApplyOne_obj heq hc)

theorem incLoop_obj : ∀ (l : List (String × JValue)) {c : JValue}
    (acc : List (String × JValue)) (fl : Bool) {c' : JValue} {acc' : List (String × JValue)}
    {fl' : Bool}, incLoop c l acc fl = some (c', acc', fl') →
    isObjJ c = true → isObjJ c' = true
  | [], c, acc, fl, c', acc', fl', h, hc => by
      simp [incLoop] at h; simpa [← h.1]
  | (k, v) :: rest, c, acc, fl, c', acc', fl', h, hc => by
      simp only [incLoop] at h
      by_cases hk : k = "$inc"
      · rw [if_pos hk] at h
        cases hkeys : objKeysE v with
        | none => simp [hkeys] at h
        | some incs =>
            simp only [hkeys] at h
            cases heq : incApplyAll c incs with
            | none => simp [heq] at h
            | some c1 =>
                simp only [heq] at h
                exact incLoop_obj rest _ _ h (incApplyAll_obj incs heq hc)
      · rw [if_neg hk] at h
        by_cases hk2 : k = "_updated_at"
        · rw [if_pos hk2] at h
          exact incLoop_obj rest _ _ h hc
        · rw [if_neg hk2] at h
          exact incLoop_obj rest _ _ h hc

theorem incPass_obj {c u c1 u1 : JValue} (h : incPass c u = some (c1, u1))
    (hc : isObjJ c = true) : isObjJ c1 = true := by
  unfold incPass at h
  cases hkeys : objKeysE u with
  | none => simp [hkeys] at h
  | some entries =>
      rw [hkeys] at h
      cases heq : incLoop c entries [] false with
      | none => simp [heq] at h
      | some r =>
          obtain ⟨cr, accr, flr⟩ := r
          simp [heq] at h
          exact h.1 ▸ incLoop_obj entries [] false heq hc

theorem addToSetApplyEach_obj {c : JValue} {it2 : String} {cands : List JValue}
    {c' : JValue} {fl : Bool} (h : addToSetApplyEach c it2 cands = some (c', fl))
    (hc : isObjJ c = true) : isObjJ c' = true := by
  simp only [addToSetApplyEach] at h
  cases hres : resolveTargetArray c (jsSplitPath it2) with
  | none => simp [hres] at h
  | some targetOpt =>
      simp only [hres] at h
      match cands with
      | [] => simp at h; simpa [← h.1]
      | c0 :: cs =>
          simp only at h
          match targetOpt with
          | some (.arr a) =>
              simp only at h
              cases hins : addToSetInsertAll a false (c0 :: cs) with
              | none => simp [hins] at h
              | some p =>
                  simp only [hins] at h
                  simp at h
                  exact h.1 ▸ isObjJ_jsSetPath _ _ hc
          | some .null | some (.bool _) | some (.num _) | some (.str _)
          | some (.obj _) | none => simp at h

theorem addToSetEachLoop_obj : ∀ (l : List (String × JValue)) {c : JValue} (it2 : String)
    (fl : Bool) {c' : JValue} {fl' : Bool},
    addToSetEachLoop c it2 l fl = some (c', fl') → isObjJ c = true → isObjJ c' = true
  | [], c, it2, fl, c', fl', h, hc => by simp [addToSetEachLoop] at h; simpa [← h.1]
  | (it3, v3) :: rest, c, it2, fl, c', fl', h, hc => by
      simp only [addToSetEachLoop] at h
      by_cases h3 : it3 = "$each"
      · rw [if_pos h3] at h
        match v3 with
        | .arr cands =>
            simp only at h
            cases heq : addToSetApplyEach c it2 cands with
            | none => simp [heq] at h
            | some p =>
                obtain ⟨cp, flp⟩ := p
                simp only [heq] at h
                exact addToSetEachLoop_obj rest _ _ h (addToSetApplyEach_obj heq hc)
        | .null | .bool _ | .num _ | .str _ | .obj _ => simp at h
      · rw [if_neg h3] at h
        exact addToSetEachLoop_obj rest _ _ h hc

theorem addToSetFieldsLoop_obj : ∀ (l : List (String × JValue)) {c : JValue} (fl : Bool)
    {c' : JValue} {fl' : Bool},
    addToSetFieldsLoop c l fl = some (c', fl') → isObjJ c = true → isObjJ c' = true
  | [], c, fl, c', fl', h, hc => by simp [addToSetFieldsLoop] at h; simpa [← h.1]
  | (it2, v2) :: rest, c, fl, c', fl', h, hc => by
      simp only [addToSetFieldsLoop] at h
      cases hkeys : objKeysE v2 with
      | none => simp [hkeys] at h
      | some inner =>
          simp only [hkeys] at h
          cases heq : addToSetEachLoop c it2 inner fl with
          | none => simp [heq] at h
          | some p =>
              obtain ⟨cp, flp⟩ := p
              simp only [heq] at h
              exact addToSetFieldsLoop_obj rest _ h (addToSetEachLoop_obj inner _ _ heq hc)

theorem addToSetLoop_obj : ∀ (l : List (String × JValue)) {c : JValue}
    (acc : List (String × JValue)) (fl : Bool) {c' : JValue} {acc' : List (String × JValue)}
    {fl' : Bool}, addToSetLoop c l acc fl = some (c', acc', fl') →
    isObjJ c = true → isObjJ c' = true
  | [], c, acc, fl, c', acc', fl', h, hc => by simp [addToSetLoop] at h; simpa [← h.1]
  | (k, v) :: rest, c, acc, fl, c', acc', fl', h, hc => by
      simp only [addToSetLoop] at h
      by_cases hk : k = "$addToSet"
      · rw [if_pos hk] at h
        cases hkeys : objKeysE v with
        | none => simp [hkeys] at h
        | some fields =>
            simp only [hkeys] at h
            cases heq : addToSetFieldsLoop c fields fl with
            | none => simp [heq] at h
            | some p =>
                obtain ⟨cp, flp⟩ := p
                simp only [heq] at h
                exact addToSetLoop_obj rest _ _ h (addToSetFieldsLoop_obj fields _ heq hc)
      · rw [if_neg hk] at h
        by_cases hk2 : k = "_updated_at"
        · rw [if_pos hk2] at h
          exact addToSetLoop_obj rest _ _ h hc
        · rw [if_neg hk2] at h
          exact addToSetLoop_obj rest _ _ h hc

theorem addToSetPass_obj {c u c2 u2 : JValue} (h : addToSetPass c u = some (c2, u2))
    (hc : isObjJ c = true) : isObjJ c2 = true := by
  unfold addToSetPass at h
  cases hkeys : objKeysE u with
  | none => simp [hkeys] at h
  | some entries =>
      rw [hkeys] at h
      cases heq : addToSetLoop c entries [] false with
      | none => simp [heq] at h
      | some r =>
          obtain ⟨cr, accr, flr⟩ := r
          simp [heq] at h
          exact h.1 ▸ addToSetLoop_obj entries [] false heq hc

theorem metaLoop_obj : ∀ (l : List (String × JValue)) {c c' : JValue},
    metaLoop c l = some c' → isObjJ c = true → isObjJ c' = true
  | [], c, c', h, hc => by simp [metaLoop] at h; simpa [← h]
  | (k, v) :: rest, c, c', h, hc => by
      simp only [metaLoop] at h
      by_cases hk : k = "_metadata"
      · rw [if_pos hk] at h
        by_cases hf : ((jsOwnEntries c).any (fun kv => kv.1 = "_metadata")) = true
        · rw [if_pos hf] at h
          cases hjp : jsProp c "_metadata" with
          | none => simp [hjp] at h
          | some mv =>
              simp only [hjp] at h
              cases h1 : hasOwnE mv "class_permissions" with
              | none => simp [h1] at h
              | some b1 =>
                  simp only [h1] at h
                  cases b1
                  · simp only at h
                    exact metaLoop_obj rest h (isObjJ_jsSetPath _ _ hc)
                  · simp only at h
                    cases h2 : hasOwnE v "class_permissions" with
                    | none => simp [h2] at h
                    | some b2 =>
                        simp only [h2] at h
                        cases b2
                        · simp only at h
                          exact metaLoop_obj rest h (isObjJ_jsSetPath _ _ hc)
                        · simp only at h
                          cases h3 : jsProp v "class_permissions" with
                          | none => simp [h3] at h
                          | some cp =>
                              simp only [h3] at h
                              exact metaLoop_obj rest h (isObjJ_jsSetPath _ _ hc)
        · rw [if_neg hf] at h
          exact metaLoop_obj rest h (isObjJ_jsSetPath _ _ hc)
      · rw [if_neg hk] at h
        exact metaLoop_obj rest h (isObjJ_jsSetPath _ _ hc)

theorem foldl_unset_obj (l : List (String × JValue)) {c : JValue} (hc : isObjJ c = true) :
    isObjJ (l.foldl
      (fun c kv =>
        if jsTypeofObject kv.2 ∧ kv.2 ≠ JValue.null ∧ kv.1 ≠ "updatedAt" ∧
            jsKeysLength kv.2 = 0
        then jsUnsetPath c (jsSplitPath kv.1) else c) c) = true := by
  induction l generalizing c with
  | nil => simpa
  | cons kv rest ih =>
      simp only [List.foldl_cons]
      by_cases hcond : jsTypeofObject kv.2 = true ∧ kv.2 ≠ JValue.null ∧
          kv.1 ≠ "updatedAt" ∧ jsKeysLength kv.2 = 0
      · rw [if_pos hcond]
        exact ih (isObjJ_jsUnsetPath _ hc)
      · rw [if_neg hcond]
        exact ih hc

theorem finalStage_obj {c u : JValue} {fl : Bool} {r f : JValue}
    (h : finalStage c u fl = some (r, f)) (hc : isObjJ c = true) : isObjJ r = true := by
  simp only [finalStage] at h
  cases hkeys : objKeysE u with
  | none => simp [hkeys] at h
  | some entries =>
      simp only [hkeys] at h
      by_cases hfn : jsTruthy (jsProp u "fieldName") = true
      · rw [if_pos hfn] at h
        split at h
        all_goals try simp at h
        obtain ⟨h1, h2⟩ := h
        subst h1
        rfl
      · rw [if_neg hfn] at h
        by_cases hmeta : fl = true ∨ jsTruthy (jsProp u "_metadata") = true
        · rw [if_pos hmeta] at h
          cases hml : metaLoop (entries.foldl
              (fun c kv =>
                if jsTypeofObject kv.2 ∧ kv.2 ≠ JValue.null ∧ kv.1 ≠ "updatedAt" ∧
                    jsKeysLength kv.2 = 0
                then jsUnsetPath c (jsSplitPath kv.1) else c) c) entries with
          | none => simp [hml] at h
          | some c2 =>
              simp only [hml] at h
              simp at h
              exact h.1 ▸ metaLoop_obj entries hml (foldl_unset_obj entries hc)
        · rw [if_neg hmeta] at h
          simp at h
          exact h.1 ▸ isObjJ_lodashMerge _ (foldl_unset_obj entries hc)

/-- The replacement object built by the transform from an object content is
itself an object. -/
theorem applyUpdateT_obj {cfs : List (String × JValue)} {u r f : JValue}
    (h : applyUpdateT (.obj cfs) u = some (r, f)) : ∃ ofs, r = .obj ofs := by
  simp only [applyUpdateT, transformPasses] at h
  cases hu : unsetFieldNames u with
  | none => simp [hu] at h
  | some names =>
      simp only [hu] at h
      match names with
      | _ :: _ => simp at h
      | [] =>
          simp only at h
          cases h1 : incPass (.obj cfs) u with
          | none => simp [h1] at h
          | some p1 =>
              obtain ⟨c1, u1⟩ := p1
              simp only [h1] at h
              cases h2 : addToSetPass c1 u1 with
              | none => simp [h2] at h
              | some p2 =>
                  obtain ⟨c2, u2⟩ := p2
                  simp only [h2] at h
                  cases h3 : pullAllPass c2 u2 with
                  | none => simp [h3] at h
                  | some p3 =>
                      obtain ⟨u3, pfl⟩ := p3
                      simp only [h3] at h
                      have hc1 : isObjJ c1 = true := incPass_obj h1 (by simp [isObjJ])
                      have hc2 : isObjJ c2 = true := addToSetPass_obj h2 hc1
                      have := finalStage_obj h hc2
                      cases hr : r <;> simp_all [isObjJ]

/-! ## Claims -/

/-- Claim C10: a single-document read (`_rawFind` result mode `'one'`)
returns the empty object as the not-found marker when zero documents match,
raises an error when more than one matches, and a successful read yields
exactly the `(key, version, content)` of a uniquely matching document. -/
theorem C10_read_one_semantics :
    rawFindOneSelect [] = .notFoundEmpty ∧
    (∀ d : SodaDoc, rawFindOneSelect [d] = .found d.content d.key d.version) ∧
    (∀ (d1 d2 : SodaDoc) (rest : List SodaDoc),
        rawFindOneSelect (d1 :: d2 :: rest) = .multiErr) ∧
    (∀ (docs : List SodaDoc) (c : JValue) (k v : String),
        rawFindOneSelect docs = .found c k v → docs = [⟨k, v, c⟩]) := by
  refine ⟨rfl, fun d => rfl, fun d1 d2 rest => rfl, ?_⟩
  intro docs c k v h
  match docs with
  | [] => simp [rawFindOneSelect] at h
  | [d] =>
      obtain ⟨dk, dv, dc⟩ := d
      simp [rawFindOneSelect] at h
      obtain ⟨h1, h2, h3⟩ := h
      simp [h1, h2, h3]
  | d1 :: d2 :: rest => simp [rawFindOneSelect] at h

/-- Witness for C10 at a concrete read result. -/
theorem C10_read_one_semantics_witness :
    ([⟨"k1", "v1", JValue.obj [("x", .num 7)]⟩] : List SodaDoc) =
      [⟨"k1", "v1", JValue.obj [("x", .num 7)]⟩] :=
  C10_read_one_semantics.2.2.2 [⟨"k1", "v1", JValue.obj [("x", .num 7)]⟩]
    (JValue.obj [("x", .num 7)]) "k1" "v1" (by decide)

/-- Claim C1: when the single-document read found a matching document, the
conditional replace is addressed by exactly that document's `(key,
version)`; the store verdict `replaced` yields the new content, the verdict
"not replaced" yields the string sentinel `'retry'`, which is distinct from
every possible returned document content (an object) and from the `false`
not-found result; a zero-match read resolves `false` exactly when the
rewrite passes (which run before the found-check) survive the undefined
content, and errors otherwise; `deleteField` follows the same protocol. -/
theorem C1_conditional_write_outcomes :
    (∀ (content update : JValue) (k v : String) (updateObj fc : JValue),
        applyUpdateT content update = some (updateObj, fc) →
          foauReplaceRequest (.found content k v) update = some ⟨k, v, updateObj⟩ ∧
          foauAfterRead (.found content k v) update true = some updateObj ∧
          foauAfterRead (.found content k v) update false = some (.str "retry")) ∧
    (∀ (update : JValue) (replaced : Bool),
        emptyReadPasses update = some () →
        foauAfterRead .notFoundEmpty update replaced = some (.bool false)) ∧
    (∀ (update : JValue) (replaced : Bool),
        emptyReadPasses update = none →
        foauAfterRead .notFoundEmpty update replaced = none) ∧
    (∀ fs : List (String × JValue), (JValue.str "retry") ≠ .obj fs) ∧
    (JValue.str "retry") ≠ .bool false ∧
    (∀ (cfs : List (String × JValue)) (update updateObj fc : JValue),
        applyUpdateT (.obj cfs) update = some (updateObj, fc) →
          ∃ ofs, updateObj = .obj ofs) ∧
    (∀ (fieldName k v : String) (fs : List (String × JValue)),
        (deleteFieldRun fieldName k v (.obj fs) true).1 =
          ⟨k, v, .obj (jsDeleteKey fs fieldName)⟩ ∧
        (deleteFieldRun fieldName k v (.obj fs) true).2 = .obj (jsDeleteKey fs fieldName) ∧
        (deleteFieldRun fieldName k v (.obj fs) false).2 = .str "retry") := by
  refine ⟨?_, ?_, ?_, fun fs => by simp, by simp, ?_,
    fun fn k v fs => ⟨rfl, rfl, rfl⟩⟩
  · intro content update k v updateObj fc h
    exact ⟨by simp [foauReplaceRequest, h], by simp [foauAfterRead, h],
      by simp [foauAfterRead, h]⟩
  · intro update replaced h
    simp [foauAfterRead, h]
  · intro update replaced h
    simp [foauAfterRead, h]
  · intro cfs update updateObj fc h
    exact applyUpdateT_obj h

/-- Witness for C1 at a concrete document and update, including a
zero-match read with a harmless update and one with a throwing `$pullAll`
update. -/
theorem C1_conditional_write_outcomes_witness :
    foauReplaceRequest (.found (.obj [("a", JValue.num 1)]) "k1" "v1") (.obj []) =
      some ⟨"k1", "v1", .obj [("a", JValue.num 1)]⟩ ∧
    foauAfterRead (.found (.obj [("a", JValue.num 1)]) "k1" "v1") (.obj []) true =
      some (.obj [("a", JValue.num 1)]) ∧
    foauAfterRead (.found (.obj [("a", JValue.num 1)]) "k1" "v1") (.obj []) false =
      some (.str "retry") ∧
    foauAfterRead .notFoundEmpty (.obj [("x", JValue.num 2)]) true =
      some (.bool false) ∧
    foauAfterRead .notFoundEmpty
      (.obj [("$pullAll", .obj [("b", .arr [JValue.num 1])])]) true = none ∧
    (∃ ofs, JValue.obj [("a", JValue.num 1)] = .obj ofs) := by
  have h : applyUpdateT (.obj [("a", JValue.num 1)]) (.obj []) =
      some (.obj [("a", JValue.num 1)], .obj [("a", JValue.num 1)]) := by decide
  obtain ⟨h1, h2, h3⟩ :=
    C1_conditional_write_outcomes.1 (.obj [("a", JValue.num 1)]) (.obj []) "k1" "v1"
      (.obj [("a", JValue.num 1)]) (.obj [("a", JValue.num 1)]) h
  exact ⟨h1, h2, h3,
    C1_conditional_write_outcomes.2.1 (.obj [("x", JValue.num 2)]) true (by decide),
    C1_conditional_write_outcomes.2.2.1
      (.obj [("$pullAll", .obj [("b", .arr [JValue.num 1])])]) true (by decide),
    C1_conditional_write_outcomes.2.2.2.2.2.1 [("a", JValue.num 1)] (.obj [])
      (.obj [("a", JValue.num 1)]) (.obj [("a", JValue.num 1)]) h⟩

/-- Translation of a single-field filter, reduced to the processing of its
one entry. -/
theorem rawFindTranslate_single (f : String) (v : JValue) :
    rawFindTranslate (.obj [(f, v)]) =
      match processEntry ⟨[(f, v)], .obj [(f, v)]⟩ f with
      | .cont st => .query st.query
      | .empty => .emptyResult
      | .err => .err := by
  simp only [rawFindTranslate, List.map]
  cases h : processEntry ⟨[(f, v)], .obj [(f, v)]⟩ f <;> simp [entryLoop, h]

/-- Claim C3 (amended): a single-field top-level filter applying `$in` or
`$all` to an empty candidate list translates to the short-circuited empty
result — for every store, the find returns `[]` without the store being
consulted (nested occurrences are not short-circuited); a single-field
top-level filter applying `$nin` to an empty list is rewritten to the
unconstrained filter `{}`, which matches every document — the empty-`$nin`
rewrite replaces the WHOLE query, so in larger filters it also destroys
sibling constraints. -/
theorem C3_empty_array_operators :
    (∀ (f : String) (store : List SodaDoc),
        rawFindTranslate (.obj [(f, .obj [("$in", .arr [])])]) = .emptyResult ∧
        rawFindDocs store (.obj [(f, .obj [("$in", .arr [])])]) = some []) ∧
    (∀ (f : String) (store : List SodaDoc),
        rawFindTranslate (.obj [(f, .obj [("$all", .arr [])])]) = .emptyResult ∧
        rawFindDocs store (.obj [(f, .obj [("$all", .arr [])])]) = some []) ∧
    (∀ f : String, f ≠ "$or" →
        rawFindTranslate (.obj [(f, .obj [("$nin", .arr [])])]) = .query (.obj [])) ∧
    (∀ doc : JValue, qbeMatch (.obj []) doc = true) := by
  have hin : ∀ f : String,
      rawFindTranslate (.obj [(f, .obj [("$in", .arr [])])]) = .emptyResult := by
    intro f
    rw [rawFindTranslate_single]
    simp [processEntry, jsLookup, jsTypeofObject, jsFirstKeyE, jsProp, isArrJ,
          jsOwnEntries, innerLoop, innerStep, innerStage1, innerStage2, innerStage3,
          jsLengthProp, jsIndex, looseNullO]
  have hall : ∀ f : String,
      rawFindTranslate (.obj [(f, .obj [("$all", .arr [])])]) = .emptyResult := by
    intro f
    rw [rawFindTranslate_single]
    simp [processEntry, jsLookup, jsTypeofObject, jsFirstKeyE, jsProp, isArrJ,
          jsOwnEntries, innerLoop, innerStep, innerStage1, innerStage2, innerStage3,
          jsLengthProp, jsIndex, looseNullO]
  refine ⟨fun f store => ⟨hin f, ?_⟩, fun f store => ⟨hall f, ?_⟩, ?_, fun doc => by
    simp [qbeMatch]⟩
  · simp [rawFindDocs, hin f]
  · simp [rawFindDocs, hall f]
  · intro f hf
    rw [rawFindTranslate_single]
    simp [processEntry, jsLookup, jsTypeofObject, jsFirstKeyE, jsProp, isArrJ,
          jsOwnEntries, innerLoop, innerStep, innerStage1, innerStage2, innerStage3,
          jsLengthProp, jsIndex, looseNullO, hf]

/-- Witness for C3 at a concrete field name. -/
theorem C3_empty_array_operators_witness :
    rawFindTranslate (.obj [("f", .obj [("$nin", .arr [])])]) = .query (.obj []) ∧
    rawFindTranslate (.obj [("f", .obj [("$in", .arr [])])]) = .emptyResult :=
  ⟨C3_empty_array_operators.2.2.1 "f" (by decide),
   (C3_empty_array_operators.1 "f" []).1⟩

/-- Claim C3 is false as stated: an empty `$nin` replaces the ENTIRE query
with `{}` — at `{a: {$nin: []}, b: 5}` the sibling constraint `b: 5` is
destroyed (a document with `b: 7` matches the translated filter) — and a
NESTED empty `$in` (under `$and`) is not short-circuited but submitted to
the store. -/
theorem C3_scope_counterexample :
    rawFindTranslate (.obj [("a", .obj [("$nin", .arr [])]), ("b", .num 5)]) =
      .query (.obj []) ∧
    qbeMatch (.obj []) (.obj [("b", .num 7)]) = true ∧
    rawFindTranslate (.obj [("$and", .arr [.obj [("a", .obj [("$in", .arr [])])]])]) =
      .query (.obj [("$and", .arr [.obj [("a", .obj [("$in", .arr [])])]])]) ∧
    rawFindTranslate (.obj [("$and", .arr [.obj [("a", .obj [("$in", .arr [])])]])]) ≠
      .emptyResult := by
  decide

/-- Claim C4 (amended): a single-field filter `{field: {$ne: null}}` is
rewritten to `{$and: [{field: {$exists: true}}, {field: {$ne: null}}]}` —
the rewrite replaces the WHOLE query, so only the last-processed `$ne`-null
comparison of a larger filter survives — and under the modelled store
semantics the rewritten filter for `score` matches only the document
`{score: 5}` among `{score: 5}`, `{score: null}`, `{}`. -/
theorem C4_ne_null_rewrite :
    (∀ f : String, f ≠ "$or" →
        rawFindTranslate (.obj [(f, .obj [("$ne", .null)])]) =
          .query (.obj [("$and", .arr
            [.obj [(f, .obj [("$exists", .bool true)])],
             .obj [(f, .obj [("$ne", .null)])]])])) ∧
    rawFindTranslate (.obj [("score", .obj [("$ne", .null)])]) =
      .query (.obj [("$and", .arr
        [.obj [("score", .obj [("$exists", .bool true)])],
         .obj [("score", .obj [("$ne", .null)])]])]) ∧
    qbeMatch (.obj [("$and", .arr
        [.obj [("score", .obj [("$exists", .bool true)])],
         .obj [("score", .obj [("$ne", .null)])]])]) (.obj [("score", .num 5)]) = true ∧
    qbeMatch (.obj [("$and", .arr
        [.obj [("score", .obj [("$exists", .bool true)])],
         .obj [("score", .obj [("$ne", .null)])]])]) (.obj [("score", .null)]) = false ∧
    qbeMatch (.obj [("$and", .arr
        [.obj [("score", .obj [("$exists", .bool true)])],
         .obj [("score", .obj [("$ne", .null)])]])]) (.obj []) = false := by
  refine ⟨?_, by decide, by decide, by decide, by decide⟩
  intro f hf
  rw [rawFindTranslate_single]
  simp [processEntry, jsLookup, jsTypeofObject, jsFirstKeyE, jsProp, isArrJ,
        jsOwnEntries, innerLoop, innerStep, innerStage1, innerStage2, innerStage3,
        jsLengthProp, jsIndex, looseNullO, hf]

/-- Witness for C4 at a concrete field name. -/
theorem C4_ne_null_rewrite_witness :
    rawFindTranslate (.obj [("score", .obj [("$ne", .null)])]) =
      .query (.obj [("$and", .arr
        [.obj [("score", .obj [("$exists", .bool true)])],
         .obj [("score", .obj [("$ne", .null)])]])]) :=
  C4_ne_null_rewrite.1 "score" (by decide)

/-- Claim C4 is false as stated: each `$ne`-null rewrite wholesale-replaces
the translated query, so in `{f: {$ne: null}, g: {$ne: null}}` only `g`'s
`$and` survives — a document with `f` explicitly `null` matches the
translated filter. -/
theorem C4_sibling_drop_counterexample :
    rawFindTranslate (.obj [("f", .obj [("$ne", .null)]),
                            ("g", .obj [("$ne", .null)])]) =
      .query (.obj [("$and", .arr [.obj [("g", .obj [("$exists", .bool true)])],
                                   .obj [("g", .obj [("$ne", .null)])]])]) ∧
    qbeMatch (.obj [("$and", .arr [.obj [("g", .obj [("$exists", .bool true)])],
                                   .obj [("g", .obj [("$ne", .null)])]])])
      (.obj [("f", .null), ("g", .num 1)]) = true := by
  decide

/-- Claim C2 (amended): a filter consisting of a field compared for
equality to `null` (alone, or together with a top-level `$or` group) is
rewritten to `{$or: [{field: {$exists: false}}, {field: null}]}`; with the
top-level `$or` present the two `$or` groups are combined under a single
`$and` (the pre-existing `$or` is consumed, not overwritten) — each such
rewrite replaces the WHOLE query, so in larger filters only the
last-processed null comparison survives; under the modelled store
semantics the null-`$or` matches a document lacking the field and a
document holding explicit `null`, and no document with a present non-null
value. -/
theorem C2_null_equality_rewrite :
    (∀ f : String, f ≠ "$or" →
        rawFindTranslate (.obj [(f, .null)]) =
          .query (.obj [("$or", .arr [.obj [(f, .obj [("$exists", .bool false)])],
                                      .obj [(f, .null)]])])) ∧
    (∀ (f : String) (orv : JValue), f ≠ "$or" →
        rawFindTranslate (.obj [(f, .null), ("$or", orv)]) =
          .query (.obj [("$and", .arr
            [ .obj [("$or", .arr [.obj [(f, .obj [("$exists", .bool false)])],
                                  .obj [(f, .null)]])],
              .obj [("$or", orv)] ])])) ∧
    (∀ (dfs : List (String × JValue)) (f : String),
        jsLookup dfs f = none →
        qbeMatch (.obj [("$or", .arr [.obj [(f, .obj [("$exists", .bool false)])],
                                      .obj [(f, .null)]])]) (.obj dfs) = true) ∧
    (∀ (dfs : List (String × JValue)) (f : String),
        jsLookup dfs f = some .null →
        qbeMatch (.obj [("$or", .arr [.obj [(f, .obj [("$exists", .bool false)])],
                                      .obj [(f, .null)]])]) (.obj dfs) = true) ∧
    (∀ (dfs : List (String × JValue)) (f : String) (w : JValue),
        jsLookup dfs f = some w → w ≠ .null →
        qbeMatch (.obj [("$or", .arr [.obj [(f, .obj [("$exists", .bool false)])],
                                      .obj [(f, .null)]])]) (.obj dfs) = false) := by
  refine ⟨?_, ?_, ?_, ?_, ?_⟩
  · intro f hf
    rw [rawFindTranslate_single]
    simp [processEntry, jsLookup, jsTypeofObject, jsOwnEntries,
          innerLoop, hf]
  · intro f orv hf
    simp [rawFindTranslate, entryLoop, processEntry, jsLookup, jsTypeofObject,
          jsOwnEntries, jsDeleteKey, innerLoop, hf]
  · intro dfs f h
    simp [qbeMatch, clauseMatch, leafMatch, jsProp, h]
  · intro dfs f h
    simp [qbeMatch, clauseMatch, leafMatch, jsProp, h]
  · intro dfs f w h hw
    simp [qbeMatch, clauseMatch, leafMatch, jsProp, h, hw]

/-- Witness for C2 at concrete field names and documents. -/
theorem C2_null_equality_rewrite_witness :
    rawFindTranslate (.obj [("foo", .null)]) =
      .query (.obj [("$or", .arr [.obj [("foo", .obj [("$exists", .bool false)])],
                                  .obj [("foo", .null)]])]) ∧
    rawFindTranslate (.obj [("foo", .null), ("$or", .arr [.obj [("a", .num 1)]])]) =
      .query (.obj [("$and", .arr
        [ .obj [("$or", .arr [.obj [("foo", .obj [("$exists", .bool false)])],
                              .obj [("foo", .null)]])],
          .obj [("$or", .arr [.obj [("a", .num 1)]])] ])]) ∧
    qbeMatch (.obj [("$or", .arr [.obj [("foo", .obj [("$exists", .bool false)])],
                                  .obj [("foo", .null)]])]) (.obj [("other", .num 1)]) = true ∧
    qbeMatch (.obj [("$or", .arr [.obj [("foo", .obj [("$exists", .bool false)])],
                                  .obj [("foo", .null)]])]) (.obj [("foo", .null)]) = true ∧
    qbeMatch (.obj [("$or", .arr [.obj [("foo", .obj [("$exists", .bool false)])],
                                  .obj [("foo", .null)]])]) (.obj [("foo", .num 5)]) = false :=
  ⟨C2_null_equality_rewrite.1 "foo" (by decide),
   C2_null_equality_rewrite.2.1 "foo" (.arr [.obj [("a", .num 1)]]) (by decide),
   C2_null_equality_rewrite.2.2.1 [("other", .num 1)] "foo" (by decide),
   C2_null_equality_rewrite.2.2.2.1 [("foo", .null)] "foo" (by decide),
   C2_null_equality_rewrite.2.2.2.2 [("foo", .num 5)] "foo" (.num 5) (by decide) (by decide)⟩

/-- Claim C2 is false as stated: each null-equality rewrite
wholesale-replaces the translated query, so in `{f: null, g: null}` only
`g`'s `$or` survives — `f`'s comparison is dropped, and a document with
`f` present and non-null matches the translated filter. -/
theorem C2_sibling_drop_counterexample :
    rawFindTranslate (.obj [("f", .null), ("g", .null)]) =
      .query (.obj [("$or", .arr [.obj [("g", .obj [("$exists", .bool false)])],
                                  .obj [("g", .null)]])]) ∧
    qbeMatch (.obj [("$or", .arr [.obj [("g", .obj [("$exists", .bool false)])],
                                  .obj [("g", .null)]])]) (.obj [("f", .num 5)]) = true := by
  decide

/-- The accumulator shape of the `$all`-on-objects rewrite loop: the
per-element conditional append is the concatenation of one copy of the
first element's conjunct list per object-typed element. -/
theorem jsTypeofObject_obj (fs : List (String × JValue)) :
    jsTypeofObject (.obj fs) = true := rfl

theorem foldl_conj_append (conj : List JValue) :
    ∀ (elems : List JValue) (acc : List JValue),
      elems.foldl (fun acc el => if jsTypeofObject el then acc ++ conj else acc) acc =
        acc ++ (elems.filter (fun el => jsTypeofObject el)).flatMap (fun _ => conj)
  | [], acc => by simp
  | el :: rest, acc => by
      simp only [List.foldl_cons, List.filter_cons]
      by_cases h : jsTypeofObject el = true
      · simp only [h, if_pos rfl, if_true]
        rw [foldl_conj_append conj rest (acc ++ conj)]
        simp
      · simp only [h, if_neg, Bool.false_eq_true, if_false]
        rw [foldl_conj_append conj rest acc]

/-- The `$all`-on-objects accumulator in closed form: one copy of the first
element's conjunct list per object-typed element. -/
theorem allObjectsCondList_eq (x : String) (e0 : JValue) (elems : List JValue) :
    allObjectsCondList x e0 elems =
      (elems.filter (fun el => jsTypeofObject el)).flatMap
        (fun _ => (jsOwnEntries e0).map
          (fun kv => JValue.obj [(x ++ "[*]." ++ kv.1, kv.2)])) := by
  simp only [allObjectsCondList, foldl_conj_append, List.nil_append]

/-- Claim C8 is false as stated: for the operand `[{a: 1}, {b: 2}]` the
rewrite does not produce one conjunct per key per object of the operand
(`{f[*].a: 1}` and `{f[*].b: 2}`) — both conjuncts are built from the
first element only. -/
theorem C8_counterexample :
    rawFindTranslate (.obj [("f", .obj [("$all",
        .arr [.obj [("a", .num 1)], .obj [("b", .num 2)]])])]) =
      .query (.obj [("$and", .arr [.obj [("f[*].a", .num 1)],
                                   .obj [("f[*].a", .num 1)]])]) ∧
    rawFindTranslate (.obj [("f", .obj [("$all",
        .arr [.obj [("a", .num 1)], .obj [("b", .num 2)]])])]) ≠
      .query (.obj [("$and", .arr [.obj [("f[*].a", .num 1)],
                                   .obj [("f[*].b", .num 2)]])]) := by
  decide

/-- Claim C8 (amended): for a non-empty `$all` operand whose first element
is an object without a `__FIELD__!!__` key, the filter is rewritten into a
`$and` with one conjunct per object-typed element of the operand per key of
the FIRST element, each conjunct of the form `{field[*].key: value}` with
the key and value taken from the first element. -/
theorem C8_all_object_array_amended (f : String) (hf : f ≠ "$or")
    (k0 : String) (v0 : JValue) (kv0tl : List (String × JValue))
    (hnf : jsLookup ((k0, v0) :: kv0tl) "__FIELD__!!__" = none) (rest : List JValue) :
    rawFindTranslate (.obj [(f, .obj [("$all",
        .arr (.obj ((k0, v0) :: kv0tl) :: rest))])]) =
      .query (.obj [("$and", .arr
        (((JValue.obj ((k0, v0) :: kv0tl) :: rest).filter
            (fun el => jsTypeofObject el)).flatMap
          (fun _ => ((k0, v0) :: kv0tl).map
            (fun kv => JValue.obj [(f ++ "[*]." ++ kv.1, kv.2)]))))]) := by
  rw [rawFindTranslate_single]
  have hnf2 : (if k0 = "__FIELD__!!__" then some v0
      else jsLookup kv0tl "__FIELD__!!__") = none := by
    simpa [jsLookup] using hnf
  simp [processEntry, jsLookup, jsTypeofObject_obj, jsFirstKeyE, jsProp, isArrJ,
        jsOwnEntries, innerLoop, innerStep, innerStage1, innerStage2, innerStage3,
        jsLengthProp, jsIndex, looseNullO, jsKeysLength, hf, hnf2,
        allObjectsCondList_eq]

/-- Witness for the amended C8 at the counterexample's input. -/
theorem C8_all_object_array_amended_witness :
    rawFindTranslate (.obj [("f", .obj [("$all",
        .arr [.obj [("a", .num 1)], .obj [("b", .num 2)]])])]) =
      .query (.obj [("$and", .arr [.obj [("f[*].a", .num 1)],
                                   .obj [("f[*].a", .num 1)]])]) :=
  (C8_all_object_array_amended "f" (by decide) "a" (.num 1) []
      (by decide) [.obj [("b", .num 2)]]).trans (by decide)

/-- Claim C6 is contradicted by the code (the `$pullAll` pass contradicts
its own comment, "removes all instances of the specified values from an
existing array"): the shared `newArray` is never reset between candidates,
so each object candidate appends its own copy of the non-matching entries
(duplicating survivors), and scalar candidates are ignored entirely —
leaving the literal `$pullAll` operator to be merged into the document.
Both behaviors are evaluated here at concrete inputs. -/
theorem C6_pullAll_failing_input_eval :
    applyUpdate
        (.obj [("b", .arr [.obj [("a", .num 1)], .obj [("b", .num 2)],
                           .obj [("c", .num 3)]])])
        (.obj [("$pullAll", .obj [("b", .arr [.obj [("a", .num 0)],
                                              .obj [("b", .num 0)]])])]) =
      some (.obj [("b", .arr [.obj [("b", .num 2)], .obj [("c", .num 3)],
                              .obj [("a", .num 1)], .obj [("c", .num 3)]])]) ∧
    applyUpdate
        (.obj [("b", .arr [.obj [("a", .num 1)], .obj [("b", .num 2)],
                           .obj [("c", .num 3)]])])
        (.obj [("$pullAll", .obj [("b", .arr [.obj [("a", .num 0)],
                                              .obj [("b", .num 0)]])])]) ≠
      some (.obj [("b", .arr [.obj [("c", .num 3)]])]) ∧
    applyUpdate (.obj [("b", .arr [.num 1, .num 2])])
        (.obj [("$pullAll", .obj [("b", .arr [.num 1])])]) =
      some (.obj [("b", .arr [.num 1, .num 2]),
                  ("$pullAll", .obj [("b", .arr [.num 1])])]) := by
  decide

/-- Claim C9 is false as stated: the transform computes the new content by
mutating the fetched `oldContent` in place (`_.set` for `$inc`, array
pushes, `_.unset`, `_.merge` into it); at `({a:1}, {$inc:{a:5}})` the final
value of the `oldContent` object is `{a:6}`, not its initial `{a:1}` — and
the returned new content is that same mutated object. -/
theorem C9_counterexample :
    applyUpdateT (.obj [("a", .num 1)]) (.obj [("$inc", .obj [("a", .num 5)])]) =
      some (.obj [("a", .num 6)], .obj [("a", .num 6)]) ∧
    (JValue.obj [("a", .num 6)]) ≠ .obj [("a", .num 1)] := by
  decide

/-- Claim C9 (amended): the transformation is deterministic — the new
content is a function of `(oldContent, updateExpr)` alone, as the shallow
embedding exhibits — but it mutates the fetched `oldContent` in place, and
for every update without the `fieldName` schema shortcut the returned new
content is exactly the final (mutated) value of the `oldContent` object
rather than a fresh value. -/
theorem C9_transform_aliasing_amended :
    (∀ (content update : JValue) (fl : Bool) (r f : JValue),
        jsTruthy (jsProp update "fieldName") = false →
        finalStage content update fl = some (r, f) → r = f) ∧
    (∀ (content update c2 u3 : JValue) (fl : Bool) (r f : JValue),
        transformPasses content update = some (c2, u3, fl) →
        jsTruthy (jsProp u3 "fieldName") = false →
        applyUpdateT content update = some (r, f) → r = f) := by
  have hfs : ∀ (content update : JValue) (fl : Bool) (r f : JValue),
      jsTruthy (jsProp update "fieldName") = false →
      finalStage content update fl = some (r, f) → r = f := by
    intro content update fl r f hfn h
    simp only [finalStage] at h
    cases hkeys : objKeysE update with
    | none => simp [hkeys] at h
    | some entries =>
        simp only [hkeys] at h
        rw [if_neg (by simp [hfn])] at h
        by_cases hmeta : fl = true ∨ jsTruthy (jsProp update "_metadata") = true
        · rw [if_pos hmeta] at h
          cases hml : metaLoop (entries.foldl
              (fun c kv =>
                if jsTypeofObject kv.2 ∧ kv.2 ≠ JValue.null ∧ kv.1 ≠ "updatedAt" ∧
                    jsKeysLength kv.2 = 0
                then jsUnsetPath c (jsSplitPath kv.1) else c) content) entries with
          | none => simp [hml] at h
          | some c2 =>
              simp only [hml] at h
              simp at h
              rw [← h.1, ← h.2]
        · rw [if_neg hmeta] at h
          simp at h
          rw [← h.1, ← h.2]
  refine ⟨hfs, ?_⟩
  intro content update c2 u3 fl r f hp hfn h
  simp only [applyUpdateT, hp] at h
  exact hfs c2 u3 fl r f hfn h

/-- Witness for the amended C9 at the counterexample's input. -/
theorem C9_transform_aliasing_amended_witness :
    (JValue.obj [("a", .num 6)]) = .obj [("a", .num 6)] :=
  C9_transform_aliasing_amended.2 (.obj [("a", .num 1)])
    (.obj [("$inc", .obj [("a", .num 5)])]) (.obj [("a", .num 6)]) (.obj [])
    false (.obj [("a", .num 6)]) (.obj [("a", .num 6)])
    (by decide) (by decide) (by decide)

/-- One `$addToSet` candidate that did not set the pushed flag passed the
incoming flag through and left the array alone. -/
theorem addToSetInsertOne_false {a : List JValue} {fl : Bool} {c : JValue}
    {a1 : List JValue} (h : addToSetInsertOne a fl c = some (a1, false)) :
    a1 = a ∧ fl = false := by
  simp only [addToSetInsertOne] at h
  by_cases ht : jsTypeofObject c = true
  · rw [if_pos ht] at h
    cases hs : someEntryFirstKeyEq a c with
    | none => simp [hs] at h
    | some b =>
        simp only [hs] at h
        cases b <;> simp_all
  · rw [if_neg ht] at h
    by_cases hc : a.contains c = true
    · rw [if_pos hc] at h
      simp at h
      exact ⟨h.1.symm, h.2⟩
    · rw [if_neg hc] at h
      simp at h
  -- the pushing branches return flag true, contradicting `false`

/-- One `$addToSet` candidate never clears an already-set pushed flag. -/
theorem addToSetInsertOne_mono {a : List JValue} {c : JValue} {a1 : List JValue}
    {fl1 : Bool} (h : addToSetInsertOne a true c = some (a1, fl1)) : fl1 = true := by
  simp only [addToSetInsertOne] at h
  by_cases ht : jsTypeofObject c = true
  · rw [if_pos ht] at h
    cases hs : someEntryFirstKeyEq a c with
    | none => simp [hs] at h
    | some b => simp only [hs] at h; cases b <;> simp_all
  · rw [if_neg ht] at h
    by_cases hc : a.contains c = true
    · rw [if_pos hc] at h; simp at h; exact h.2
    · rw [if_neg hc] at h; simp at h; exact h.2

/-- The pushed flag of the `$addToSet` candidate fold is monotone. -/
theorem addToSetInsertAll_mono : ∀ (cands : List JValue) (a : List JValue)
    {a' : List JValue} {fl' : Bool},
    addToSetInsertAll a true cands = some (a', fl') → fl' = true
  | [], a, a', fl', h => by simp [addToSetInsertAll] at h; exact h.2
  | c :: cs, a, a', fl', h => by
      simp only [addToSetInsertAll] at h
      cases hone : addToSetInsertOne a true c with
      | none => simp [hone] at h
      | some p =>
          obtain ⟨a1, fl1⟩ := p
          simp only [hone] at h
          have := addToSetInsertOne_mono hone
          subst this
          exact addToSetInsertAll_mono cs a1 h

/-- When no candidate was pushed, the `$addToSet` fold leaves the target
array unchanged. -/
theorem addToSetInsertAll_false : ∀ (cands : List JValue) (a : List JValue) (fl : Bool)
    {a' : List JValue}, addToSetInsertAll a fl cands = some (a', false) → a' = a
  | [], a, fl, a', h => by simp [addToSetInsertAll] at h; exact h.1.symm
  | c :: cs, a, fl, a', h => by
      simp only [addToSetInsertAll] at h
      cases hone : addToSetInsertOne a fl c with
      | none => simp [hone] at h
      | some p =>
          obtain ⟨a1, fl1⟩ := p
          simp only [hone] at h
          cases fl1 with
          | true =>
              have := addToSetInsertAll_mono cs a1 h
              simp at this
          | false =>
              obtain ⟨ha1, _⟩ := addToSetInsertOne_false hone
              exact ha1 ▸ addToSetInsertAll_false cs a1 false h

/-- Claim C5: over a target array field, `$addToSet` with `$each` appends
each candidate exactly when it is not already present — presence of an
object candidate decided by an existing element sharing its first key,
presence of a scalar candidate by literal inclusion (the fold
`addToSetInsertAll` is the transcription of lines 245-257) — and the whole
multi-pass transform leaves the target field holding exactly that fold's
result; in particular the mixed `$inc`/`$addToSet` scenario yields
`{a: 6, b: [1, 2, 3]}` with no duplicate `2`. -/
theorem C5_addToSet_each_semantics :
    (∀ (old cands : List JValue),
        (applyUpdate (.obj [("b", .arr old)])
            (.obj [("$addToSet", .obj [("b", .obj [("$each", .arr cands)])])])).bind
          (fun r => jsProp r "b") =
        (addToSetInsertAll old false cands).map (fun p => JValue.arr p.1)) ∧
    applyUpdate (.obj [("a", .num 1), ("b", .arr [.num 1, .num 2])])
        (.obj [("$inc", .obj [("a", .num 5)]),
               ("$addToSet", .obj [("b", .obj [("$each", .arr [.num 2, .num 3])])])]) =
      some (.obj [("a", .num 6), ("b", .arr [.num 1, .num 2, .num 3])]) := by
  refine ⟨?_, by decide⟩
  intro old cands
  have hsplit : jsSplitPath "b" = ["b"] := by decide
  cases cands with
  | nil =>
      simp [applyUpdate, applyUpdateT, transformPasses, unsetFieldNames, incPass, incLoop,
            addToSetPass, addToSetLoop, addToSetFieldsLoop, addToSetEachLoop,
            addToSetApplyEach, resolveTargetArray, hsplit, pullAllPass, pullAllLoop,
            finalStage, metaLoop, objKeysE, jsOwnEntries, jsProp, jsLookup, jsTypeofObject,
            jsTruthy, jsKeysLength, lodashMerge, jvSizeF, jvSizeN, lodashMergeFieldsF,
            jsAssignEntry, jsSetPath, addToSetInsertAll]
  | cons c cs =>
      cases hins : addToSetInsertAll old false (c :: cs) with
      | none =>
          simp [applyUpdate, applyUpdateT, transformPasses, unsetFieldNames, incPass,
                incLoop, addToSetPass, addToSetLoop, addToSetFieldsLoop, addToSetEachLoop,
                addToSetApplyEach, resolveTargetArray, hsplit, objKeysE, jsOwnEntries,
                jsProp, jsLookup, hins]
      | some p =>
          obtain ⟨a2, fl2⟩ := p
          cases fl2 with
          | false =>
              have ha2 : a2 = old := addToSetInsertAll_false (c :: cs) old false hins
              subst ha2
              simp [applyUpdate, applyUpdateT, transformPasses, unsetFieldNames, incPass,
                    incLoop, addToSetPass, addToSetLoop, addToSetFieldsLoop,
                    addToSetEachLoop, addToSetApplyEach, resolveTargetArray, hsplit,
                    pullAllPass, pullAllLoop, finalStage, objKeysE, jsOwnEntries, jsProp,
                    jsLookup, jsTypeofObject, jsTruthy, jsKeysLength, lodashMerge, jvSizeF,
                    jvSizeN, lodashMergeFieldsF, jsAssignEntry, jsSetPath, hins]
          | true =>
              simp [applyUpdate, applyUpdateT, transformPasses, unsetFieldNames, incPass,
                    incLoop, addToSetPass, addToSetLoop, addToSetFieldsLoop,
                    addToSetEachLoop, addToSetApplyEach, resolveTargetArray, hsplit,
                    pullAllPass, pullAllLoop, finalStage, objKeysE, jsOwnEntries, jsProp,
                    jsLookup, jsTypeofObject, jsTruthy, jsKeysLength, lodashMerge, jvSizeF,
                    jvSizeN, lodashMergeFieldsF, jsAssignEntry, jsSetPath, hins]

/-- Claim C7: when the read matches nothing and the update survives the
rewrite passes (run against the undefined content before the found-check),
the update attempt resolves `false` and `upsertOne` merges the filter's
fields into the update payload (`_.merge(update, query)`) and inserts the
merged document; when the read matches nothing but the update holds an
array operator, the attempt throws and nothing is inserted; when the
update attempt found a document, the attempt's result (content or retry
sentinel) is returned unchanged and no insert happens. -/
theorem C7_upsert_insert_on_not_found :
    (∀ (store : List SodaDoc) (query update : JValue) (replaced : Bool),
        rawFindDocs store query = some [] →
        emptyReadPasses update = some () →
        findOneAndUpdateRun store query update replaced = some (.bool false) ∧
        upsertOneRun store query update replaced =
          some (.inserted (lodashMerge update query))) ∧
    (∀ (store : List SodaDoc) (query update : JValue) (replaced : Bool),
        rawFindDocs store query = some [] →
        emptyReadPasses update = none →
        upsertOneRun store query update replaced = none) ∧
    (∀ (store : List SodaDoc) (query update : JValue) (replaced : Bool)
        (docs : List SodaDoc) (cfs : List (String × JValue)) (k v : String)
        (uo fc : JValue),
        rawFindDocs store query = some docs →
        rawFindOneSelect docs = .found (.obj cfs) k v →
        applyUpdateT (.obj cfs) update = some (uo, fc) →
        upsertOneRun store query update replaced =
          some (.ret (if replaced then uo else .str "retry"))) ∧
    (∀ (r p : JValue), UpsertOutcome.ret r ≠ .inserted p) := by
  refine ⟨?_, ?_, ?_, fun r p => by simp⟩
  · intro store query update replaced h hp
    have hrun : findOneAndUpdateRun store query update replaced = some (.bool false) := by
      simp [findOneAndUpdateRun, h, rawFindOneSelect, foauAfterRead, hp]
    exact ⟨hrun, by simp [upsertOneRun, hrun, h]⟩
  · intro store query update replaced h hp
    have hrun : findOneAndUpdateRun store query update replaced = none := by
      simp [findOneAndUpdateRun, h, rawFindOneSelect, foauAfterRead, hp]
    simp [upsertOneRun, hrun]
  · intro store query update replaced docs cfs k v uo fc h1 h2 h3
    obtain ⟨ofs, rfl⟩ := applyUpdateT_obj h3
    have hrun : findOneAndUpdateRun store query update replaced =
        some (if replaced then .obj ofs else .str "retry") := by
      simp [findOneAndUpdateRun, h1, h2, foauAfterRead, h3]
    cases replaced <;> simp [upsertOneRun, hrun]

/-- Witness for C7: an upsert into an empty store inserts the merged
payload for an operator-free update, errors (and inserts nothing) for a
`$pullAll` update, and an upsert whose read matches an existing document
returns the update attempt's result with no insert. -/
theorem C7_upsert_insert_on_not_found_witness :
    upsertOneRun [] (.obj [("a", .num 1)]) (.obj [("b", .num 2)]) true =
      some (.inserted (lodashMerge (.obj [("b", .num 2)]) (.obj [("a", .num 1)]))) ∧
    upsertOneRun [] (.obj [("a", .num 1)])
      (.obj [("$pullAll", .obj [("b", .arr [.num 1])])]) true = none ∧
    upsertOneRun [⟨"k1", "v1", .obj [("a", .num 1)]⟩] (.obj [("a", .num 1)])
        (.obj [("b", .num 2)]) true =
      some (.ret (.obj [("a", .num 1), ("b", .num 2)])) := by
  refine ⟨(C7_upsert_insert_on_not_found.1 [] (.obj [("a", .num 1)])
      (.obj [("b", .num 2)]) true (by decide) (by decide)).2, ?_, ?_⟩
  · exact C7_upsert_insert_on_not_found.2.1 [] (.obj [("a", .num 1)])
      (.obj [("$pullAll", .obj [("b", .arr [.num 1])])]) true (by decide) (by decide)
  · exact (C7_upsert_insert_on_not_found.2.2.1 [⟨"k1", "v1", .obj [("a", .num 1)]⟩]
      (.obj [("a", .num 1)]) (.obj [("b", .num 2)]) true
      [⟨"k1", "v1", .obj [("a", .num 1)]⟩] [("a", .num 1)] "k1" "v1"
      (.obj [("a", .num 1), ("b", .num 2)]) (.obj [("a", .num 1), ("b", .num 2)])
      (by decide) (by decide) (by decide)).trans (by decide)

end OracleAdapter
